import Mathlib

/-!
Shallow embedding of the cooperative arcade game server (`server.js`) and its
client-side snapshot reconciler (the unnamed client script).

Conventions of the embedding:
* JS `Map`s (players / bullets / balls) become insertion-ordered lists; `Map.set`
  with a fresh id is `++ [x]`, `Map.delete` over a pending-removal set is a
  `filter`, and in-place mutation of an entry is a `map` guarded on the id.
* JS numbers are exact: integer-valued state (tick counters, wave, lives) is
  `ℕ`/`ℤ`, money-like rational state (wave weights, hp, chances, ℚ-valued
  coordinates) is `ℚ`.  Bullet coordinates are `ℝ` because homing bullets move
  along a normalised (irrational) direction; `Math.hypot` is `Real.sqrt`.
* Every call to `Math.random()` is replaced by an oracle field of `Env`,
  keyed by the ids involved at the call site; `Date.now()` is `Env.now`.
* The per-tick body of `gameTick` is split into one definition per source
  block, composed in the source's order in `gameTick`.
-/

namespace Balls

/-- Server room width in px (`ROOM_WIDTH`, server.js:9). -/
def ROOM_WIDTH : ℚ := 720
/-- Server room height in px (`ROOM_HEIGHT`, server.js:10). -/
def ROOM_HEIGHT : ℚ := 1280
/-- Ticks per second (`TICK_RATE`, server.js:7). -/
def TICK_RATE : ℕ := 15
/-- `PLAYER_RADIUS` (server.js:34). -/
def PLAYER_RADIUS : ℚ := 20
/-- `PLAYER_SPEED` (server.js:35). -/
def PLAYER_SPEED : ℚ := 16
/-- `BULLET_DAMAGE` (server.js:36). -/
def BULLET_DAMAGE : ℚ := 1
/-- `BULLET_RADIUS` (server.js:37), as a real since bullets live in ℝ². -/
noncomputable def BULLET_RADIUS : ℝ := 6
/-- `BULLET_SPEED` (server.js:38), px per tick. -/
noncomputable def BULLET_SPEED : ℝ := 75
/-- `CARD_SELECTION_MS` (server.js:62). -/
def CARD_SELECTION_MS : ℤ := 15000
/-- `INITIAL_LIVES` (server.js:63). -/
def INITIAL_LIVES : ℤ := 10
/-- `AREA_DAMAGE_RADIUS` (server.js:64). -/
noncomputable def AREA_DAMAGE_RADIUS : ℝ := 100
/-- `PUSHER_STRENGTH` (server.js:65). -/
def PUSHER_STRENGTH : ℚ := 5
/-- `BURN_DURATION_TICKS = 5 * TICK_RATE` (server.js:66). -/
def BURN_DURATION_TICKS : ℕ := 5 * TICK_RATE
/-- `MELEE_RANGE` (server.js:67). -/
noncomputable def MELEE_RANGE : ℝ := 200
/-- `MELEE_BULLET_INTERVAL` (server.js:68). -/
def MELEE_BULLET_INTERVAL : ℕ := 4

/-- The closed set of ball types (server.js:13-17). -/
inductive BallType | normal | fast | big
deriving DecidableEq, Repr

/-- Per-type configuration record `{ hp, speed, spawnRate, waveWeight }`. -/
structure BallDef where
  hp : ℚ
  speed : ℚ
  spawnRate : ℚ
  waveWeight : ℚ
deriving DecidableEq, Repr

/-- `BALL_TYPES` (server.js:13-17). -/
def BALL_TYPES : BallType → BallDef
  | .normal => ⟨20, 7, 3, 1/2⟩
  | .fast => ⟨14, 10, 2, 1⟩
  | .big => ⟨160, 3, 1, 2⟩

/-- `BALL_TYPE_KEYS = Object.keys(BALL_TYPES)` (server.js:18), in source order. -/
def BALL_TYPE_KEYS : List BallType := [.normal, .fast, .big]

/-- The card identifiers of `CARD_TYPES` (server.js:21-31); display strings dropped. -/
inductive CardId
  | critical | piercing | areaDamage | bulletCount | pusher
  | extraLife | ignition | melee | bouncyBullets
deriving DecidableEq, Repr

/-- `CARD_TYPES` as the ordered list of card ids (server.js:21-31). -/
def CARD_TYPES : List CardId :=
  [.critical, .piercing, .areaDamage, .bulletCount, .pusher,
   .extraLife, .ignition, .melee, .bouncyBullets]

/-- `gamePhase` values (server.js:56, plus `gameOver` set at server.js:152). -/
inductive Phase | playing | cardSelection | gameOver
deriving DecidableEq, Repr

/-- A player's current key state (server.js:390). -/
structure Keys where
  left : Bool
  right : Bool
  up : Bool
  down : Bool
deriving DecidableEq, Repr

/-- A connected player (server.js:377-392 plus upgrade fields). -/
structure Player where
  id : ℕ
  x : ℚ
  y : ℚ
  criticalChance : ℚ
  pierceChance : ℚ
  areaDamageLevel : ℕ
  bulletCount : ℕ
  pusherChance : ℚ
  ignitionChance : ℚ
  meleeDamage : ℕ
  bounceCount : ℕ
  offeredCards : Option (List CardId)
  cardSelected : Bool
  keys : Keys
deriving DecidableEq, Repr

/-- A bullet (created at server.js:287-299 and 311-320).  `mx`/`my` model the
transient `_moveX`/`_moveY` fields that the collision pass stores on the bullet
for the movement pass (server.js:251-252). -/
structure Bullet where
  id : ℕ
  x : ℝ
  y : ℝ
  ownerId : Option ℕ
  radius : ℝ
  vx : Option ℝ
  vy : Option ℝ
  bouncesLeft : Option ℤ
  homing : Bool
  targetBallId : Option ℕ
  damage : Option ℚ
  mx : Option ℝ
  my : Option ℝ

/-- A ball (created in `spawnBall`, server.js:86-95; `burnEndTick` set at
server.js:237). -/
structure Ball where
  id : ℕ
  x : ℚ
  y : ℚ
  type : BallType
  hp : ℚ
  maxHp : ℚ
  speed : ℚ
  radius : ℚ
  burnEndTick : Option ℕ
deriving DecidableEq, Repr

/-- The mutable server game state (server.js:48-61). -/
structure GameState where
  players : List Player
  bullets : List Bullet
  balls : List Ball
  nextPlayerId : ℕ
  nextBulletId : ℕ
  nextBallId : ℕ
  tickCount : ℕ
  gameStarted : Bool
  gamePhase : Phase
  wave : ℕ
  waveWeightSpawned : ℚ
  lastSpawnTick : ℕ
  cardSelectionEndTime : ℤ
  lives : ℤ

/-- The random/time oracle for one tick: each field replaces one `Math.random()`
call site of `gameTick` (keyed by the ids in scope there), plus `Date.now()`.
All rolls are meant to lie in `[0,1)`. -/
structure Env where
  now : ℤ
  spawnTypeRoll : ℚ
  spawnXRoll : ℚ
  cardRoll : ℕ → ℕ → ℚ
  critRoll : ℕ → ℕ → ℚ
  pusherRoll : ℕ → ℕ → ℚ
  igniteRoll : ℕ → ℕ → ℚ
  pierceRoll : ℕ → ℕ → ℚ

/-! ### Spawning (server.js:71-98) -/

/-- Total of the spawn rates, the reduce at server.js:72. -/
def totalSpawnRate : ℚ :=
  BALL_TYPE_KEYS.foldl (fun s k => s + (BALL_TYPES k).spawnRate) 0

/-- The subtract-and-test loop of `pickBallType` (server.js:74-77). -/
def pickLoop (r : ℚ) : List BallType → Option BallType
  | [] => none
  | k :: rest =>
    let r' := r - (BALL_TYPES k).spawnRate
    if r' ≤ 0 then some k else pickLoop r' rest

/-- `pickBallType` (server.js:71-79); `u` is the `Math.random()` draw, the
`.getD` fallback is the `return BALL_TYPE_KEYS[0]` at server.js:78. -/
def pickBallType (u : ℚ) : BallType :=
  (pickLoop (u * totalSpawnRate) BALL_TYPE_KEYS).getD BallType.normal

/-- Radius by type (server.js:85). -/
def ballRadius : BallType → ℚ
  | .big => 70
  | .fast => 30
  | .normal => 44

/-- `spawnBall` (server.js:82-98); `u` is the `Math.random()` draw for x. -/
def spawnBall (nextId : ℕ) (u : ℚ) (type : BallType) : Ball :=
  let radius := ballRadius type
  { id := nextId
    x := u * (ROOM_WIDTH - radius * 2) + radius
    y := -radius - 10
    type := type
    hp := (BALL_TYPES type).hp
    maxHp := (BALL_TYPES type).hp
    speed := (BALL_TYPES type).speed
    radius := radius
    burnEndTick := none }

/-! ### Collision geometry (server.js:101-120) -/

/-- `Math.hypot` on two arguments. -/
noncomputable def hypot (x y : ℝ) : ℝ := Real.sqrt (x ^ 2 + y ^ 2)

open scoped Classical in
/-- `pointToSegmentDist` (server.js:101-111): distance from `(px,py)` to the
segment from `(x1,y1)` to `(x2,y2)`, via the clamped projection parameter. -/
noncomputable def pointToSegmentDist (px py x1 y1 x2 y2 : ℝ) : ℝ :=
  let dx := x2 - x1
  let dy := y2 - y1
  let lenSq := dx * dx + dy * dy
  if lenSq = 0 then hypot (px - x1) (py - y1) else
  let t := max 0 (min 1 (((px - x1) * dx + (py - y1) * dy) / lenSq))
  hypot (px - (x1 + t * dx)) (py - (y1 + t * dy))

/-- `bulletHitsBall` (server.js:113-120): swept collision of the bullet's
per-tick movement segment against the ball circle. -/
noncomputable def bulletHitsBall (bullet : Bullet) (ball : Ball)
    (moveX moveY : ℝ) : Prop :=
  pointToSegmentDist (ball.x : ℝ) (ball.y : ℝ) bullet.x bullet.y
    (bullet.x + moveX) (bullet.y + moveY) ≤ bullet.radius + (ball.radius : ℝ)

/-! ### resetGame (server.js:122-147) -/

/-- The per-player body of the `players.forEach` in `resetGame`
(server.js:132-145). -/
def resetPlayer (p : Player) : Player :=
  { p with
    x := ROOM_WIDTH / 2
    y := ROOM_HEIGHT - 80
    criticalChance := 0
    pierceChance := 0
    areaDamageLevel := 0
    bulletCount := 1
    pusherChance := 0
    ignitionChance := 0
    meleeDamage := 0
    bounceCount := 0
    offeredCards := none
    cardSelected := false }

/-- `resetGame` (server.js:122-147). -/
def resetGame (s : GameState) : GameState :=
  { s with
    bullets := []
    balls := []
    nextBulletId := 1
    nextBallId := 1
    tickCount := 0
    wave := 1
    waveWeightSpawned := 0
    lastSpawnTick := 0
    lives := INITIAL_LIVES
    players := s.players.map resetPlayer
    gamePhase := .playing }

/-! ### gameTick, phase/spawn blocks (server.js:149-199) -/

/-- `if (lives <= 0 && gamePhase === 'playing') gamePhase = 'gameOver'`
(server.js:152). -/
def checkGameOver (s : GameState) : GameState :=
  if s.lives ≤ 0 ∧ s.gamePhase = .playing then { s with gamePhase := .gameOver } else s

/-- Offer 3 uniformly random cards to a player and clear the selection flag
(server.js:167-173); the `.getD` fallback is unreachable for rolls in `[0,1)`. -/
def offerCards (e : Env) (p : Player) : Player :=
  { p with
    offeredCards := some (([0, 1, 2] : List ℕ).map fun i =>
      (CARD_TYPES.get? (⌊e.cardRoll p.id i * (CARD_TYPES.length : ℚ)⌋.toNat)).getD .critical)
    cardSelected := false }

/-- The spawn attempt (server.js:154-162): spawn one ball when budget remains
and the cadence has elapsed.  `tickCount - lastSpawnTick` is ℕ-subtraction;
in the source `lastSpawnTick ≤ tickCount` always holds. -/
def spawnTry (s : GameState) (e : Env) : GameState :=
  if s.waveWeightSpawned < 20 * (11/10 : ℚ) ^ (s.wave - 1) ∧
      max 1 (⌊(TICK_RATE : ℚ) * (9/10 : ℚ) ^ (s.wave - 1)⌋.toNat) ≤ s.tickCount - s.lastSpawnTick then
    { s with
      balls := s.balls ++ [spawnBall s.nextBallId e.spawnXRoll (pickBallType e.spawnTypeRoll)]
      nextBallId := s.nextBallId + 1
      waveWeightSpawned := s.waveWeightSpawned + (BALL_TYPES (pickBallType e.spawnTypeRoll)).waveWeight
      lastSpawnTick := s.tickCount }
  else s

/-- Wave-completion check (server.js:164-174): enter card selection when the
budget is spent and no ball remains. -/
def spawnWaveCheck (s : GameState) (e : Env) : GameState :=
  if 20 * (11/10 : ℚ) ^ (s.wave - 1) ≤ s.waveWeightSpawned ∧ s.balls = [] ∧ s.gamePhase = .playing then
    { s with
      gamePhase := .cardSelection
      cardSelectionEndTime := e.now + CARD_SELECTION_MS
      players := s.players.map (offerCards e) }
  else s

/-- The whole `if (gameStarted && gamePhase === 'playing' && lives > 0)` block
(server.js:153-175). -/
def spawnSection (s : GameState) (e : Env) : GameState :=
  if s.gameStarted = true ∧ s.gamePhase = .playing ∧ 0 < s.lives then
    spawnWaveCheck (spawnTry s e) e
  else s

/-- Clearing a player's offering when card selection ends (server.js:184-187). -/
def clearCards (p : Player) : Player :=
  { p with offeredCards := none, cardSelected := false }

/-- End of card selection on timeout or all selected (server.js:176-189). -/
def cardEndSection (s : GameState) (e : Env) : GameState :=
  if s.gamePhase = .cardSelection then
    if s.players.all (·.cardSelected) = true ∨ s.cardSelectionEndTime ≤ e.now then
      { s with
        gamePhase := .playing
        wave := s.wave + 1
        waveWeightSpawned := 0
        players := s.players.map clearCards }
    else s
  else s

/-- The per-player input integration body (server.js:194-197). -/
def movePlayer (p : Player) : Player :=
  let p := if p.keys.left then { p with x := max PLAYER_RADIUS (p.x - PLAYER_SPEED) } else p
  let p := if p.keys.right then { p with x := min (ROOM_WIDTH - PLAYER_RADIUS) (p.x + PLAYER_SPEED) } else p
  let p := if p.keys.up then { p with y := max PLAYER_RADIUS (p.y - PLAYER_SPEED) } else p
  if p.keys.down then { p with y := min (ROOM_HEIGHT - PLAYER_RADIUS) (p.y + PLAYER_SPEED) } else p

/-- Input integration, frozen when game over (server.js:191-199). -/
def inputSection (s : GameState) : GameState :=
  if s.gamePhase ≠ .gameOver then { s with players := s.players.map movePlayer } else s

/-! ### Collision pass (server.js:201-253)

The JS `bullets.forEach` mutates ball objects (hp, y, burn) while collecting
pending removals; deletions only happen later, so each iteration sees the
balls list as left by the previous iterations.  We model the pass as a left
fold over the bullet list threading an accumulator. -/

/-- Collected mutable state of the collision pass: the current balls list, the
two pending-removal sets (server.js:202-203) and the transient per-tick event
lists (server.js:204-205). -/
structure CollisionAcc where
  balls : List Ball
  removeBullets : Finset ℕ
  removeBalls : Finset ℕ
  areaHits : List (ℚ × ℚ)
  bulletHits : List (ℚ × ℚ)

open scoped Classical in
/-- The splash-damage inner `balls.forEach` (server.js:242-247): every other
ball within `AREA_DAMAGE_RADIUS` of the impact takes `areaDmg`. -/
noncomputable def areaLoop (centerId : ℕ) (cx cy : ℚ) (areaDmg : ℚ) :
    List Ball → Finset ℕ → List Ball × Finset ℕ
  | [], rem => ([], rem)
  | b :: rest, rem =>
    if b.id ≠ centerId ∧ hypot ((b.x : ℝ) - (cx : ℝ)) ((b.y : ℝ) - (cy : ℝ)) ≤ AREA_DAMAGE_RADIUS then
      let b' := { b with hp := b.hp - areaDmg }
      let rem' := if b'.hp ≤ 0 then insert b'.id rem else rem
      let r := areaLoop centerId cx cy areaDmg rest rem'
      (b' :: r.1, r.2)
    else
      let r := areaLoop centerId cx cy areaDmg rest rem
      (b :: r.1, r.2)

open scoped Classical in
/-- Body of the inner `balls.forEach` (server.js:229-250) for one ball id: test
the swept hit and apply damage, crit, pusher, ignition, pierce and area
effects.  `owner` is `none` for homing bullets, so all chances default to 0. -/
noncomputable def ballHitStep (e : Env) (tickCount : ℕ) (bullet : Bullet)
    (moveX moveY : ℝ) (damage : ℚ) (owner : Option Player)
    (acc : CollisionAcc) (bid : ℕ) : CollisionAcc :=
  let criticalChance := (owner.map (·.criticalChance)).getD 0
  let pierceChance := (owner.map (·.pierceChance)).getD 0
  let areaLevel := (owner.map (·.areaDamageLevel)).getD 0
  let pusherChance := (owner.map (·.pusherChance)).getD 0
  let ignitionChance := (owner.map (·.ignitionChance)).getD 0
  match acc.balls.find? (·.id == bid) with
  | none => acc
  | some ball =>
    if bulletHitsBall bullet ball moveX moveY then
      let bulletHits := acc.bulletHits ++ [(ball.x, ball.y)]
      let dmg := if bullet.homing = false ∧ e.critRoll bullet.id ball.id * 100 < criticalChance
        then damage * 2 else damage
      let ball := { ball with hp := ball.hp - dmg }
      let removeBalls := if ball.hp ≤ 0 then insert ball.id acc.removeBalls else acc.removeBalls
      let ball := if bullet.homing = false ∧ e.pusherRoll bullet.id ball.id * 100 < pusherChance
        then { ball with y := ball.y - PUSHER_STRENGTH } else ball
      let ball := if bullet.homing = false ∧ 0 < ignitionChance ∧
          e.igniteRoll bullet.id ball.id * 100 < ignitionChance
        then { ball with burnEndTick := some (tickCount + BURN_DURATION_TICKS) } else ball
      let removeBullets := if bullet.homing = true ∨ pierceChance ≤ e.pierceRoll bullet.id ball.id * 100
        then insert bullet.id acc.removeBullets else acc.removeBullets
      let balls := acc.balls.map (fun b => if b.id == ball.id then ball else b)
      if bullet.homing = false ∧ 0 < areaLevel then
        let areaDmg := BULLET_DAMAGE * (1/10) * (11/10 : ℚ) ^ (areaLevel - 1)
        let r := areaLoop ball.id ball.x ball.y areaDmg balls removeBalls
        { balls := r.1, removeBullets := removeBullets, removeBalls := r.2,
          areaHits := acc.areaHits ++ [(ball.x, ball.y)], bulletHits := bulletHits }
      else
        { balls := balls, removeBullets := removeBullets, removeBalls := removeBalls,
          areaHits := acc.areaHits, bulletHits := bulletHits }
    else acc

open scoped Classical in
/-- One iteration of the outer `bullets.forEach` (server.js:206-253): compute
the movement vector, damage and owner, run the ball loop, then record the
movement on the bullet (`_moveX`/`_moveY`).  A homing bullet whose target has
vanished is marked for removal and returns early (server.js:212), leaving its
`mx`/`my` unset. -/
noncomputable def bulletStep (players : List Player) (e : Env) (tickCount : ℕ)
    (st : CollisionAcc × List Bullet) (bullet : Bullet) : CollisionAcc × List Bullet :=
  let acc := st.1
  let done := st.2
  if bullet.homing = true then
    match bullet.targetBallId.bind (fun tid => acc.balls.find? (·.id == tid)) with
    | none => ({ acc with removeBullets := insert bullet.id acc.removeBullets }, done ++ [bullet])
    | some target =>
      let dx := (target.x : ℝ) - bullet.x
      let dy := (target.y : ℝ) - bullet.y
      let len := if hypot dx dy = 0 then 1 else hypot dx dy
      let moveX := dx / len * BULLET_SPEED
      let moveY := dy / len * BULLET_SPEED
      let damage := bullet.damage.getD 1
      let acc' := (acc.balls.map (·.id)).foldl
        (ballHitStep e tickCount bullet moveX moveY damage none) acc
      (acc', done ++ [{ bullet with mx := some moveX, my := some moveY }])
  else
    let owner := bullet.ownerId.bind (fun oid => players.find? (·.id == oid))
    let moveX := bullet.vx.getD 0
    let moveY := bullet.vy.getD (-BULLET_SPEED)
    let acc' := (acc.balls.map (·.id)).foldl
      (ballHitStep e tickCount bullet moveX moveY BULLET_DAMAGE owner) acc
    (acc', done ++ [{ bullet with mx := some moveX, my := some moveY }])

/-- The full collision pass over all bullets (server.js:202-253).  Returns the
state with updated bullets/balls plus the accumulated pending removals. -/
noncomputable def collisionSection (s : GameState) (e : Env) : GameState × CollisionAcc :=
  let r := s.bullets.foldl (bulletStep s.players e s.tickCount)
    (⟨s.balls, ∅, ∅, [], []⟩, [])
  ({ s with bullets := r.2, balls := r.1.balls }, r.1)

/-! ### Bullet movement and removal (server.js:255-278) -/

open scoped Classical in
/-- Move one bullet by its recorded movement, refresh `vx`/`vy` for bouncy
bullets, and bounce off the screen edges (server.js:256-275). -/
noncomputable def moveOneBullet (b : Bullet) : Bullet :=
  let mxv := b.mx.getD 0
  let myv := b.my.getD (-BULLET_SPEED)
  let b := { b with x := b.x + mxv, y := b.y + myv, mx := none, my := none }
  let b := if b.homing = false ∧ (b.vx ≠ none ∨ b.vy ≠ none)
    then { b with vx := some mxv, vy := some myv } else b
  let bl := b.bouncesLeft.getD 0
  if 0 < bl then
    let p1 := if b.x < BULLET_RADIUS
      then ({ b with x := BULLET_RADIUS, vx := some (-(b.vx.getD 0)) }, bl - 1) else (b, bl)
    let p2 := if p1.1.x > (ROOM_WIDTH : ℝ) - BULLET_RADIUS
      then ({ p1.1 with x := (ROOM_WIDTH : ℝ) - BULLET_RADIUS, vx := some (-(p1.1.vx.getD 0)) }, p1.2 - 1)
      else p1
    let p3 := if p2.1.y < BULLET_RADIUS
      then ({ p2.1 with y := BULLET_RADIUS, vy := some (-(p2.1.vy.getD (-BULLET_SPEED))) }, p2.2 - 1)
      else p2
    let p4 := if p3.1.y > (ROOM_HEIGHT : ℝ) - BULLET_RADIUS
      then ({ p3.1 with y := (ROOM_HEIGHT : ℝ) - BULLET_RADIUS, vy := some (-(p3.1.vy.getD (-BULLET_SPEED))) }, p3.2 - 1)
      else p3
    { p4.1 with bouncesLeft := some (max 0 p4.2) }
  else b

/-- Off-screen test for a moved bullet (server.js:276). -/
noncomputable def bulletOut (b : Bullet) : Prop :=
  b.y < -BULLET_RADIUS ∨ b.y > (ROOM_HEIGHT : ℝ) + BULLET_RADIUS ∨
  b.x < -BULLET_RADIUS ∨ b.x > (ROOM_WIDTH : ℝ) + BULLET_RADIUS

open scoped Classical in
/-- Move all bullets, then delete every bullet marked for removal or off
screen (server.js:256-278). -/
noncomputable def moveBulletsSection (s : GameState) (removeBullets : Finset ℕ) : GameState :=
  let moved := (s.bullets.map moveOneBullet).filter
    (fun b => decide (¬(b.id ∈ removeBullets ∨ bulletOut b)))
  { s with bullets := moved }

/-! ### Bullet spawning (server.js:280-324) -/

/-- One straight bullet spawned at player centre (server.js:286-299), the
`i`-th of the player's `bulletCount` bullets this tick. -/
noncomputable def straightBullet (p : Player) (nid : ℕ) (i : ℕ) : Bullet :=
  let count := p.bulletCount
  let dx : ℚ := if 1 < count then ((i : ℚ) - ((count : ℚ) - 1) / 2) * 16 else 0
  { id := nid, x := ((p.x + dx : ℚ) : ℝ), y := ((p.y : ℚ) : ℝ), ownerId := some p.id,
    radius := BULLET_RADIUS,
    vx := if 0 < p.bounceCount then some 0 else none,
    vy := if 0 < p.bounceCount then some (-BULLET_SPEED) else none,
    bouncesLeft := if 0 < p.bounceCount then some (p.bounceCount : ℤ) else none,
    homing := false, targetBallId := none, damage := none, mx := none, my := none }

/-- The `for (let i = 0; i < count; i++)` loop at server.js:285-300. -/
noncomputable def spawnStraightBullets (p : Player) (st : List Bullet × ℕ) : List Bullet × ℕ :=
  (List.range p.bulletCount).foldl
    (fun (st : List Bullet × ℕ) i => (st.1 ++ [straightBullet p st.2 i], st.2 + 1)) st

open scoped Classical in
/-- The nearest-ball scan for melee (server.js:304-309): the running pair of
the nearest ball so far with its distance, starting at `MELEE_RANGE` so only
balls strictly within range are found. -/
noncomputable def nearestMeleeTarget (p : Player) (balls : List Ball) : Option Ball × ℝ :=
  balls.foldl (fun (best : Option Ball × ℝ) b =>
    if hypot ((b.x : ℝ) - (p.x : ℝ)) ((b.y : ℝ) - (p.y : ℝ)) < best.2
    then (some b, hypot ((b.x : ℝ) - (p.x : ℝ)) ((b.y : ℝ) - (p.y : ℝ))) else best)
    (none, MELEE_RANGE)

/-- The homing melee bullet (server.js:311-320); note it carries the spawning
player's id as `ownerId`. -/
noncomputable def homingBullet (p : Player) (nid : ℕ) (targetId : ℕ) : Bullet :=
  { id := nid, x := ((p.x : ℚ) : ℝ), y := ((p.y : ℚ) : ℝ), ownerId := some p.id,
    radius := BULLET_RADIUS, vx := none, vy := none, bouncesLeft := none,
    homing := true, targetBallId := some targetId, damage := some (p.meleeDamage : ℚ),
    mx := none, my := none }

open scoped Classical in
/-- Bullets created for one player in one tick (server.js:282-323): `count`
straight bullets (bouncy if the player has bounce upgrades) plus, every
`MELEE_BULLET_INTERVAL` ticks when a melee player has a ball strictly within
`MELEE_RANGE`, one homing bullet at the nearest such ball. -/
noncomputable def spawnBulletsForPlayer (tickCount : ℕ) (balls : List Ball)
    (st : List Bullet × ℕ) (p : Player) : List Bullet × ℕ :=
  let r := spawnStraightBullets p st
  if 0 < p.meleeDamage ∧ tickCount % MELEE_BULLET_INTERVAL = 0 then
    match (nearestMeleeTarget p balls).1 with
    | some nb => (r.1 ++ [homingBullet p r.2 nb.id], r.2 + 1)
    | none => r
  else r

open scoped Classical in
/-- The bullet-spawning block (server.js:281-324), active only while a started
game is in the playing phase with lives remaining. -/
noncomputable def spawnBulletsSection (s : GameState) : GameState :=
  if s.gameStarted = true ∧ s.gamePhase = .playing ∧ 0 < s.lives then
    let r := s.players.foldl (spawnBulletsForPlayer s.tickCount s.balls) (s.bullets, s.nextBulletId)
    { s with bullets := r.1, nextBulletId := r.2 }
  else s

/-! ### Burn damage (server.js:325-331) -/

/-- One pass of burn damage: burning balls lose 1 hp; those at hp ≤ 0 join the
pending removals. -/
def burnLoop (tickCount : ℕ) : List Ball → Finset ℕ → List Ball × Finset ℕ
  | [], rem => ([], rem)
  | b :: rest, rem =>
    match b.burnEndTick with
    | some bet =>
      if tickCount < bet then
        let b' := { b with hp := b.hp - 1 }
        let rem' := if b'.hp ≤ 0 then insert b'.id rem else rem
        let r := burnLoop tickCount rest rem'
        (b' :: r.1, r.2)
      else
        let r := burnLoop tickCount rest rem
        (b :: r.1, r.2)
    | none =>
      let r := burnLoop tickCount rest rem
      (b :: r.1, r.2)

/-- The burn-damage block (server.js:325-331). -/
def burnSection (s : GameState) (removeBalls : Finset ℕ) : GameState × Finset ℕ :=
  let r := burnLoop s.tickCount s.balls removeBalls
  ({ s with balls := r.1 }, r.2)

/-! ### Ball movement and life loss (server.js:333-342) -/

/-- Move each ball down by its speed; a ball past the bottom boundary joins the
removals and costs one shared life (server.js:334-340). -/
def moveBallsLoop : List Ball → Finset ℕ → ℤ → List Ball × Finset ℕ × ℤ
  | [], rem, lives => ([], rem, lives)
  | b :: rest, rem, lives =>
    let b' := { b with y := b.y + b.speed }
    if ROOM_HEIGHT + b'.radius < b'.y then
      let r := moveBallsLoop rest (insert b'.id rem) (lives - 1)
      (b' :: r.1, r.2.1, r.2.2)
    else
      let r := moveBallsLoop rest rem lives
      (b' :: r.1, r.2.1, r.2.2)

/-- The ball-movement block (server.js:333-342): move balls, apply the pending
removals, then clamp lives at 0. -/
def moveBallsSection (s : GameState) (removeBalls : Finset ℕ) : GameState :=
  let r := moveBallsLoop s.balls removeBalls s.lives
  { s with
    balls := r.1.filter (fun b => decide (b.id ∉ r.2.1))
    lives := if r.2.2 < 0 then 0 else r.2.2 }

/-! ### The full tick (server.js:149-373) -/

/-- Everything `gameTick` does before the ball-movement block, paired with the
pending ball removals accumulated so far. -/
noncomputable def gameTickMid (s : GameState) (e : Env) : GameState × Finset ℕ :=
  let s5 := inputSection (cardEndSection (spawnSection (checkGameOver
    { s with tickCount := s.tickCount + 1 }) e) e)
  let c := collisionSection s5 e
  let s8 := spawnBulletsSection (moveBulletsSection c.1 c.2.removeBullets)
  burnSection s8 c.2.removeBalls

/-- One full server tick (server.js:149-373), with the oracle `e` supplying the
tick's random draws and `Date.now()`. -/
noncomputable def gameTick (s : GameState) (e : Env) : GameState :=
  moveBallsSection (gameTickMid s e).1 (gameTickMid s e).2

/-! ### selectCard handler (server.js:409-423) -/

/-- Application of a selected card (server.js:414-422): all upgrades stack
additively; `extraLife` increments the shared pool instead. -/
def applyCard (card : CardId) (p : Player) (lives : ℤ) : Player × ℤ :=
  match card with
  | .critical => ({ p with criticalChance := p.criticalChance + 10 }, lives)
  | .piercing => ({ p with pierceChance := p.pierceChance + 10 }, lives)
  | .areaDamage => ({ p with areaDamageLevel := p.areaDamageLevel + 1 }, lives)
  | .bulletCount => ({ p with bulletCount := p.bulletCount + 1 }, lives)
  | .pusher => ({ p with pusherChance := p.pusherChance + 5 }, lives)
  | .extraLife => (p, lives + 1)
  | .ignition => ({ p with ignitionChance := p.ignitionChance + 1 }, lives)
  | .melee => ({ p with meleeDamage := p.meleeDamage + 1 }, lives)
  | .bouncyBullets => ({ p with bounceCount := p.bounceCount + 1 }, lives)

/-- The index lookup `player.offeredCards[cardIndex]` (server.js:411): a
negative, fractional-free out-of-range or any index into a null offering
yields no card. -/
def offeredCardAt (p : Player) (cardIndex : ℤ) : Option CardId :=
  p.offeredCards.bind (fun cards => if 0 ≤ cardIndex then cards.get? cardIndex.toNat else none)

/-- The `selectCard` handler (server.js:409-423) for the player with id `pid`.
Requests from ids not in the players map are modelled as no-ops (in the source
such a request would mutate only the disconnected closure's dead object). -/
def selectCard (s : GameState) (pid : ℕ) (cardIndex : ℤ) : GameState :=
  match s.players.find? (·.id == pid) with
  | none => s
  | some player =>
    if s.gamePhase ≠ .cardSelection ∨ player.offeredCards = none ∨ player.cardSelected = true then s
    else
      match offeredCardAt player cardIndex with
      | none => s
      | some card =>
        let r := applyCard card { player with cardSelected := true } s.lives
        { s with lives := r.2, players := s.players.map (fun q => if q.id == pid then r.1 else q) }

/-- A freshly connected player (server.js:377-392). -/
def newPlayer (id : ℕ) : Player :=
  { id := id
    x := ROOM_WIDTH / 2
    y := ROOM_HEIGHT - 80
    criticalChance := 0
    pierceChance := 0
    areaDamageLevel := 0
    bulletCount := 1
    pusherChance := 0
    ignitionChance := 0
    meleeDamage := 0
    bounceCount := 0
    offeredCards := none
    cardSelected := false
    keys := ⟨false, false, false, false⟩ }

/-! ## Client-side snapshot reconciler (the unnamed client script)

The client only ever performs rational arithmetic on received positions, so
this half of the model is fully computable over ℚ.  Entity records are cut to
the fields the reconciler reads. -/

namespace Client

/-- `SERVER_TICK_MS = 1000 / 15` (client:16). -/
def SERVER_TICK_MS : ℚ := 1000 / 15
/-- `BULLET_SPEED` px per tick (client:17). -/
def BULLET_SPEED : ℚ := 75
/-- `PX_PER_MS_BULLET = BULLET_SPEED / SERVER_TICK_MS` (client:18). -/
def PX_PER_MS_BULLET : ℚ := BULLET_SPEED / SERVER_TICK_MS
/-- `INTERP_DELAY_MS` (client:19). -/
def INTERP_DELAY_MS : ℚ := 50

/-- A player as the reconciler sees it. -/
structure CPlayer where
  id : ℕ
  x : ℚ
  y : ℚ
deriving DecidableEq, Repr

/-- A bullet as the reconciler sees it. -/
structure CBullet where
  id : ℕ
  x : ℚ
  y : ℚ
  homing : Bool
  vx : Option ℚ
  vy : Option ℚ
deriving DecidableEq, Repr

/-- A ball as the reconciler sees it. -/
structure CBall where
  id : ℕ
  x : ℚ
  y : ℚ
deriving DecidableEq, Repr

/-- The entity lists of one received state message. -/
structure CState where
  players : List CPlayer
  bullets : List CBullet
  balls : List CBall
deriving DecidableEq, Repr

/-- A buffered snapshot: local receipt time plus the received state
(client:87-101). -/
structure Snapshot where
  time : ℚ
  state : CState
deriving DecidableEq, Repr

/-- `lerp` (client:28-30). -/
def lerp (a b t : ℚ) : ℚ := a + (b - a) * t

/-- `lerpEntity` (client:32-39) at player type: position lerped when the older
snapshot has the entity, otherwise the newer entity as-is. -/
def lerpPlayer (a : Option CPlayer) (b : CPlayer) (t : ℚ) : CPlayer :=
  match a with
  | none => b
  | some a => { b with x := lerp a.x b.x t, y := lerp a.y b.y t }

/-- `lerpEntity` (client:32-39) at bullet type. -/
def lerpBullet (a : Option CBullet) (b : CBullet) (t : ℚ) : CBullet :=
  match a with
  | none => b
  | some a => { b with x := lerp a.x b.x t, y := lerp a.y b.y t }

/-- `lerpEntity` (client:32-39) at ball type; the `{ ...bb, ...lerped }` merge
at client:54 equals the lerped record. -/
def lerpBall (a : Option CBall) (b : CBall) (t : ℚ) : CBall :=
  match a with
  | none => b
  | some a => { b with x := lerp a.x b.x t, y := lerp a.y b.y t }

/-- `lerpState` (client:41-67) on the entity lists: each entity of the newer
state is matched by id against the older state and lerped. -/
def lerpState (sa sb : CState) (t : ℚ) : CState :=
  { players := sb.players.map (fun pb => lerpPlayer (sa.players.find? (·.id == pb.id)) pb t)
    bullets := sb.bullets.map (fun bb => lerpBullet (sa.bullets.find? (·.id == bb.id)) bb t)
    balls := sb.balls.map (fun bb => lerpBall (sa.balls.find? (·.id == bb.id)) bb t) }

/-- The bracket-search loop of `getInterpolatedState` (client:229-235): the
first adjacent snapshot pair whose times enclose the render time. -/
def findBracket (r : ℚ) : List Snapshot → Option (Snapshot × Snapshot)
  | a :: b :: rest => if a.time ≤ r ∧ r ≤ b.time then some (a, b) else findBracket r (b :: rest)
  | _ => none

/-- Bullet extrapolation (client:252-266): homing bullets stay at the reported
position; others advance by their stored velocity, or by the default
straight-up bullet speed, for the elapsed wall-clock ms. -/
def extrapolateBullet (elapsed : ℚ) (b : CBullet) : CBullet :=
  if b.homing then b
  else if b.vx ≠ none ∨ b.vy ≠ none then
    { b with
      x := b.x + (b.vx.getD 0) * (elapsed / SERVER_TICK_MS)
      y := b.y + (b.vy.getD (-BULLET_SPEED)) * (elapsed / SERVER_TICK_MS) }
  else { b with y := b.y - PX_PER_MS_BULLET * elapsed }

/-- `getInterpolatedState` (client:220-270).  The `prev === next` identity test
of client:238 holds exactly when the buffer has a single entry (with two or
more entries, `prev` and `next` are distinct buffer cells), so the singleton
buffer short-circuits to that snapshot's state.  The `dt || 1` of client:241
becomes the zero test on the time difference. -/
def getInterpolatedState (buffer : List Snapshot) (now : ℚ) : Option CState :=
  match buffer with
  | [] => none
  | b0 :: rest =>
    let renderTime := now - INTERP_DELAY_MS
    let last := rest.getLastD b0
    let base :=
      if rest = [] then b0.state
      else
        let pn := (findBracket renderTime (b0 :: rest)).getD (b0, last)
        let dt := if pn.2.time - pn.1.time = 0 then 1 else pn.2.time - pn.1.time
        let alpha := min 1 (max 0 ((renderTime - pn.1.time) / dt))
        lerpState pn.1.state pn.2.state alpha
    let elapsed := now - last.time
    some { base with bullets := last.state.bullets.map (extrapolateBullet elapsed) }

end Client

/-! ## Section-level preservation lemmas

Each block of `gameTick` only writes the state fields its source block writes;
these lemmas record that, so that whole-tick claims can be pushed down to the
relevant block. -/

lemma inputSection_gamePhase (s : GameState) : (inputSection s).gamePhase = s.gamePhase := by
  unfold inputSection; split <;> rfl

lemma inputSection_wave (s : GameState) : (inputSection s).wave = s.wave := by
  unfold inputSection; split <;> rfl

lemma inputSection_waveWeightSpawned (s : GameState) :
    (inputSection s).waveWeightSpawned = s.waveWeightSpawned := by
  unfold inputSection; split <;> rfl

lemma inputSection_lives (s : GameState) : (inputSection s).lives = s.lives := by
  unfold inputSection; split <;> rfl

lemma inputSection_gameOver (s : GameState) (h : s.gamePhase = .gameOver) :
    inputSection s = s := by
  unfold inputSection
  rw [if_neg]
  simp [h]

lemma collisionSection_fst_gamePhase (s : GameState) (e : Env) :
    ((collisionSection s e).1).gamePhase = s.gamePhase := rfl

lemma collisionSection_fst_wave (s : GameState) (e : Env) :
    ((collisionSection s e).1).wave = s.wave := rfl

lemma collisionSection_fst_waveWeightSpawned (s : GameState) (e : Env) :
    ((collisionSection s e).1).waveWeightSpawned = s.waveWeightSpawned := rfl

lemma collisionSection_fst_lives (s : GameState) (e : Env) :
    ((collisionSection s e).1).lives = s.lives := rfl

lemma collisionSection_fst_players (s : GameState) (e : Env) :
    ((collisionSection s e).1).players = s.players := rfl

lemma moveBulletsSection_gamePhase (s : GameState) (r : Finset ℕ) :
    (moveBulletsSection s r).gamePhase = s.gamePhase := rfl

lemma moveBulletsSection_wave (s : GameState) (r : Finset ℕ) :
    (moveBulletsSection s r).wave = s.wave := rfl

lemma moveBulletsSection_waveWeightSpawned (s : GameState) (r : Finset ℕ) :
    (moveBulletsSection s r).waveWeightSpawned = s.waveWeightSpawned := rfl

lemma moveBulletsSection_lives (s : GameState) (r : Finset ℕ) :
    (moveBulletsSection s r).lives = s.lives := rfl

lemma moveBulletsSection_players (s : GameState) (r : Finset ℕ) :
    (moveBulletsSection s r).players = s.players := rfl

lemma moveBulletsSection_balls (s : GameState) (r : Finset ℕ) :
    (moveBulletsSection s r).balls = s.balls := rfl

lemma spawnBulletsSection_gamePhase (s : GameState) :
    (spawnBulletsSection s).gamePhase = s.gamePhase := by
  unfold spawnBulletsSection; split <;> rfl

lemma spawnBulletsSection_wave (s : GameState) :
    (spawnBulletsSection s).wave = s.wave := by
  unfold spawnBulletsSection; split <;> rfl

lemma spawnBulletsSection_waveWeightSpawned (s : GameState) :
    (spawnBulletsSection s).waveWeightSpawned = s.waveWeightSpawned := by
  unfold spawnBulletsSection; split <;> rfl

lemma spawnBulletsSection_lives (s : GameState) :
    (spawnBulletsSection s).lives = s.lives := by
  unfold spawnBulletsSection; split <;> rfl

lemma spawnBulletsSection_players (s : GameState) :
    (spawnBulletsSection s).players = s.players := by
  unfold spawnBulletsSection; split <;> rfl

lemma spawnBulletsSection_balls (s : GameState) :
    (spawnBulletsSection s).balls = s.balls := by
  unfold spawnBulletsSection; split <;> rfl

lemma burnSection_fst_gamePhase (s : GameState) (r : Finset ℕ) :
    ((burnSection s r).1).gamePhase = s.gamePhase := rfl

lemma burnSection_fst_wave (s : GameState) (r : Finset ℕ) :
    ((burnSection s r).1).wave = s.wave := rfl

lemma burnSection_fst_waveWeightSpawned (s : GameState) (r : Finset ℕ) :
    ((burnSection s r).1).waveWeightSpawned = s.waveWeightSpawned := rfl

lemma burnSection_fst_lives (s : GameState) (r : Finset ℕ) :
    ((burnSection s r).1).lives = s.lives := rfl

lemma burnSection_fst_players (s : GameState) (r : Finset ℕ) :
    ((burnSection s r).1).players = s.players := rfl

lemma moveBallsSection_gamePhase (s : GameState) (r : Finset ℕ) :
    (moveBallsSection s r).gamePhase = s.gamePhase := rfl

lemma moveBallsSection_wave (s : GameState) (r : Finset ℕ) :
    (moveBallsSection s r).wave = s.wave := rfl

lemma moveBallsSection_waveWeightSpawned (s : GameState) (r : Finset ℕ) :
    (moveBallsSection s r).waveWeightSpawned = s.waveWeightSpawned := rfl

lemma moveBallsSection_players (s : GameState) (r : Finset ℕ) :
    (moveBallsSection s r).players = s.players := rfl

/-- `gameTick`'s final phase is decided entirely by the phase blocks at the top
of the tick. -/
lemma gameTick_gamePhase (s : GameState) (e : Env) :
    (gameTick s e).gamePhase =
      (cardEndSection (spawnSection (checkGameOver { s with tickCount := s.tickCount + 1 }) e) e).gamePhase := by
  simp only [gameTick, gameTickMid, moveBallsSection_gamePhase, burnSection_fst_gamePhase,
    spawnBulletsSection_gamePhase, moveBulletsSection_gamePhase, collisionSection_fst_gamePhase,
    inputSection_gamePhase]

/-- `gameTick`'s final wave counter is decided by the phase blocks. -/
lemma gameTick_wave (s : GameState) (e : Env) :
    (gameTick s e).wave =
      (cardEndSection (spawnSection (checkGameOver { s with tickCount := s.tickCount + 1 }) e) e).wave := by
  simp only [gameTick, gameTickMid, moveBallsSection_wave, burnSection_fst_wave,
    spawnBulletsSection_wave, moveBulletsSection_wave, collisionSection_fst_wave,
    inputSection_wave]

/-- `gameTick`'s final spent budget is decided by the phase blocks. -/
lemma gameTick_waveWeightSpawned (s : GameState) (e : Env) :
    (gameTick s e).waveWeightSpawned =
      (cardEndSection (spawnSection (checkGameOver { s with tickCount := s.tickCount + 1 }) e) e).waveWeightSpawned := by
  simp only [gameTick, gameTickMid, moveBallsSection_waveWeightSpawned,
    burnSection_fst_waveWeightSpawned, spawnBulletsSection_waveWeightSpawned,
    moveBulletsSection_waveWeightSpawned, collisionSection_fst_waveWeightSpawned,
    inputSection_waveWeightSpawned]

/-- Only input integration touches the player list during a tick. -/
lemma gameTick_players (s : GameState) (e : Env) :
    (gameTick s e).players =
      (inputSection (cardEndSection (spawnSection (checkGameOver { s with tickCount := s.tickCount + 1 }) e) e)).players := by
  simp only [gameTick, gameTickMid, moveBallsSection_players, burnSection_fst_players,
    spawnBulletsSection_players, moveBulletsSection_players, collisionSection_fst_players]

/-! ## Characterisations of the phase blocks -/

lemma checkGameOver_id (s : GameState) (h : 0 < s.lives ∨ s.gamePhase ≠ .playing) :
    checkGameOver s = s := by
  unfold checkGameOver
  rw [if_neg]
  rcases h with h | h
  · exact fun hc => absurd hc.1 (by omega)
  · exact fun hc => h hc.2

lemma checkGameOver_fires (s : GameState) (h : s.lives ≤ 0) (hp : s.gamePhase = .playing) :
    checkGameOver s = { s with gamePhase := .gameOver } := by
  unfold checkGameOver
  rw [if_pos ⟨h, hp⟩]

lemma spawnSection_inactive (s : GameState) (e : Env)
    (h : ¬(s.gameStarted = true ∧ s.gamePhase = .playing ∧ 0 < s.lives)) :
    spawnSection s e = s := by
  unfold spawnSection
  rw [if_neg h]

lemma spawnSection_active (s : GameState) (e : Env)
    (h : s.gameStarted = true ∧ s.gamePhase = .playing ∧ 0 < s.lives) :
    spawnSection s e = spawnWaveCheck (spawnTry s e) e := by
  unfold spawnSection
  rw [if_pos h]

lemma spawnTry_no_spawn (s : GameState) (e : Env)
    (h : ¬s.waveWeightSpawned < 20 * (11/10 : ℚ) ^ (s.wave - 1)) :
    spawnTry s e = s := by
  unfold spawnTry
  rw [if_neg (fun hc => h hc.1)]

lemma spawnTry_gamePhase (s : GameState) (e : Env) : (spawnTry s e).gamePhase = s.gamePhase := by
  unfold spawnTry; split <;> rfl

lemma spawnTry_wave (s : GameState) (e : Env) : (spawnTry s e).wave = s.wave := by
  unfold spawnTry; split <;> rfl

lemma spawnTry_players (s : GameState) (e : Env) : (spawnTry s e).players = s.players := by
  unfold spawnTry; split <;> rfl

/-- A spawn attempt either leaves the state unchanged or leaves at least one
ball alive (the freshly spawned one). -/
lemma spawnTry_cases (s : GameState) (e : Env) :
    spawnTry s e = s ∨ (spawnTry s e).balls ≠ [] := by
  unfold spawnTry
  split
  · right; simp
  · left; rfl

/-- A freshly offered player has not selected yet, so right after the offering
the all-selected test succeeds exactly for an empty player list. -/
lemma all_cardSelected_offerCards (e : Env) (l : List Player) :
    (l.map (offerCards e)).all (·.cardSelected) = l.isEmpty := by
  cases l with
  | nil => rfl
  | cons p rest => simp [offerCards]

/-- The state entered on wave completion (the then-branch of server.js:164-174). -/
def offerState (s : GameState) (e : Env) : GameState :=
  { s with gamePhase := .cardSelection, cardSelectionEndTime := e.now + CARD_SELECTION_MS,
           players := s.players.map (offerCards e) }

lemma spawnWaveCheck_fires (s : GameState) (e : Env)
    (hw : 20 * (11/10 : ℚ) ^ (s.wave - 1) ≤ s.waveWeightSpawned)
    (hb : s.balls = []) (hp : s.gamePhase = .playing) :
    spawnWaveCheck s e = offerState s e := by
  unfold spawnWaveCheck offerState
  rw [if_pos ⟨hw, hb, hp⟩]

lemma offerState_gamePhase (s : GameState) (e : Env) :
    (offerState s e).gamePhase = .cardSelection := rfl

lemma offerState_all_cardSelected (s : GameState) (e : Env) :
    ((offerState s e).players.all (·.cardSelected)) = s.players.isEmpty := by
  show ((s.players.map (offerCards e)).all (·.cardSelected)) = s.players.isEmpty
  exact all_cardSelected_offerCards e s.players

lemma spawnWaveCheck_skip (s : GameState) (e : Env)
    (h : ¬(20 * (11/10 : ℚ) ^ (s.wave - 1) ≤ s.waveWeightSpawned ∧ s.balls = [] ∧ s.gamePhase = .playing)) :
    spawnWaveCheck s e = s := by
  unfold spawnWaveCheck
  rw [if_neg h]

lemma cardEndSection_skip (s : GameState) (e : Env) (h : s.gamePhase ≠ .cardSelection) :
    cardEndSection s e = s := by
  unfold cardEndSection
  rw [if_neg h]

lemma cardEndSection_done (s : GameState) (e : Env) (h : s.gamePhase = .cardSelection)
    (hd : s.players.all (·.cardSelected) = true ∨ s.cardSelectionEndTime ≤ e.now) :
    cardEndSection s e =
      { s with gamePhase := .playing, wave := s.wave + 1, waveWeightSpawned := 0,
               players := s.players.map clearCards } := by
  unfold cardEndSection
  rw [if_pos h, if_pos hd]

lemma cardEndSection_stay (s : GameState) (e : Env) (h : s.gamePhase = .cardSelection)
    (hd : ¬(s.players.all (·.cardSelected) = true ∨ s.cardSelectionEndTime ≤ e.now)) :
    cardEndSection s e = s := by
  unfold cardEndSection
  rw [if_pos h, if_neg hd]

/-- A tick that starts in card selection and meets the end condition returns to
playing with the wave advanced and the budget reset. -/
lemma gameTick_cardSelection_done (s : GameState) (e : Env)
    (h : s.gamePhase = .cardSelection)
    (hd : s.players.all (·.cardSelected) = true ∨ s.cardSelectionEndTime ≤ e.now) :
    (gameTick s e).gamePhase = .playing ∧ (gameTick s e).wave = s.wave + 1 ∧
    (gameTick s e).waveWeightSpawned = 0 := by
  have hgp := gameTick_gamePhase s e
  have hwv := gameTick_wave s e
  have hww := gameTick_waveWeightSpawned s e
  rw [checkGameOver_id _ (Or.inr (by simp [h])),
    spawnSection_inactive _ _ (by simp [h]),
    cardEndSection_done { s with tickCount := s.tickCount + 1 } e h hd] at hgp hwv hww
  exact ⟨hgp, hwv, hww⟩

/-- A tick that starts in card selection and does not meet the end condition
stays in card selection with wave and budget unchanged. -/
lemma gameTick_cardSelection_stay (s : GameState) (e : Env)
    (h : s.gamePhase = .cardSelection)
    (hd : ¬(s.players.all (·.cardSelected) = true ∨ s.cardSelectionEndTime ≤ e.now)) :
    (gameTick s e).gamePhase = .cardSelection ∧ (gameTick s e).wave = s.wave ∧
    (gameTick s e).waveWeightSpawned = s.waveWeightSpawned := by
  have hgp := gameTick_gamePhase s e
  have hwv := gameTick_wave s e
  have hww := gameTick_waveWeightSpawned s e
  rw [checkGameOver_id _ (Or.inr (by simp [h])),
    spawnSection_inactive _ _ (by simp [h]),
    cardEndSection_stay { s with tickCount := s.tickCount + 1 } e h hd] at hgp hwv hww
  exact ⟨by rw [hgp]; exact h, hwv, hww⟩

/-! ## Claims -/

/-- A concrete oracle for witness states: time 0 and all random draws 0. -/
def env0 : Env :=
  { now := 0, spawnTypeRoll := 0, spawnXRoll := 0,
    cardRoll := fun _ _ => 0, critRoll := fun _ _ => 0, pusherRoll := fun _ _ => 0,
    igniteRoll := fun _ _ => 0, pierceRoll := fun _ _ => 0 }

/-- The phase blocks at the top of a tick, from a playing state: the result is
in card selection exactly when the wave is complete, the game live, and some
player is connected. -/
lemma phaseBlocks_cs_iff (s : GameState) (e : Env) (h : s.gamePhase = .playing) :
    (cardEndSection (spawnSection (checkGameOver s) e) e).gamePhase = .cardSelection ↔
      s.gameStarted = true ∧ 0 < s.lives ∧ s.players ≠ [] ∧
      20 * (11/10 : ℚ) ^ (s.wave - 1) ≤ s.waveWeightSpawned ∧ s.balls = [] := by
  by_cases hl : 0 < s.lives
  · rw [checkGameOver_id s (Or.inl hl)]
    by_cases hg : s.gameStarted = true
    · rw [spawnSection_active s e ⟨hg, h, hl⟩]
      by_cases hw : 20 * (11/10 : ℚ) ^ (s.wave - 1) ≤ s.waveWeightSpawned
      · rw [spawnTry_no_spawn s e (not_lt.mpr hw)]
        by_cases hb : s.balls = []
        · rw [spawnWaveCheck_fires s e hw hb h]
          by_cases hpl : s.players = []
          · rw [cardEndSection_done (offerState s e) e (offerState_gamePhase s e)
              (Or.inl (by rw [offerState_all_cardSelected]; simp [hpl]))]
            simp [hpl]
          · rw [cardEndSection_stay (offerState s e) e (offerState_gamePhase s e) (by
                push_neg
                constructor
                · rw [offerState_all_cardSelected]
                  simp [hpl]
                · show e.now < e.now + CARD_SELECTION_MS
                  simp only [CARD_SELECTION_MS]
                  omega)]
            rw [offerState_gamePhase]
            simp [hg, hl, hpl, hw, hb]
        · rw [spawnWaveCheck_skip s e (fun hc => hb hc.2.1),
            cardEndSection_skip s e (by simp [h])]
          simp [h, hb]
      · rcases spawnTry_cases s e with hid | hbne
        · rw [hid, spawnWaveCheck_skip s e (fun hc => hw hc.1),
            cardEndSection_skip s e (by simp [h])]
          simp [h, hw]
        · rw [spawnWaveCheck_skip (spawnTry s e) e (fun hc => hbne hc.2.1),
            cardEndSection_skip (spawnTry s e) e (by rw [spawnTry_gamePhase]; simp [h]),
            spawnTry_gamePhase]
          simp [h, hw]
    · rw [spawnSection_inactive s e (fun hc => hg hc.1),
        cardEndSection_skip s e (by simp [h])]
      simp [h, hg]
  · rw [checkGameOver_fires s (by omega) h,
      spawnSection_inactive { s with gamePhase := Phase.gameOver } e (by simp),
      cardEndSection_skip { s with gamePhase := Phase.gameOver } e (by simp)]
    simp [hl]

/-- C1 witness state: a started wave-1 playing state with one player, the
spawn budget fully spent and no balls. -/
def c1sW : GameState :=
  { players := [newPlayer 1], bullets := [], balls := [],
    nextPlayerId := 2, nextBulletId := 1, nextBallId := 1, tickCount := 30,
    gameStarted := true, gamePhase := .playing, wave := 1, waveWeightSpawned := 20,
    lastSpawnTick := 30, cardSelectionEndTime := 0, lives := 10 }

/-- C1 counterexample state: the same state with the shared lives exhausted. -/
def c1sC : GameState := { c1sW with lives := 0 }

/-- C1 (amended): wave `N` requires spawn budget `20 × 1.1^(N-1)`, and a tick
that starts in the playing phase ends in card selection exactly when, in
addition to the spent budget having reached that bound with no live balls, the
game is started, shared lives are positive (otherwise the tick moves to
`gameOver` instead) and at least one player is connected (with no players the
phase falls straight back to playing within the same tick). -/
theorem wave_completion_transition (s : GameState) (e : Env) (h : s.gamePhase = .playing) :
    (gameTick s e).gamePhase = .cardSelection ↔
      s.gameStarted = true ∧ 0 < s.lives ∧ s.players ≠ [] ∧
      20 * (11/10 : ℚ) ^ (s.wave - 1) ≤ s.waveWeightSpawned ∧ s.balls = [] := by
  rw [gameTick_gamePhase]
  exact phaseBlocks_cs_iff { s with tickCount := s.tickCount + 1 } e h

/-- C1 witness: the concrete state `c1sW` satisfies the amended condition and
its tick does transition to card selection. -/
theorem wave_completion_transition_witness :
    c1sW.gamePhase = .playing ∧ (gameTick c1sW env0).gamePhase = .cardSelection := by
  refine ⟨rfl, ?_⟩
  rw [wave_completion_transition c1sW env0 rfl]
  exact ⟨rfl, by decide, by simp [c1sW], by norm_num [c1sW], rfl⟩

/-- C1 counterexample: in `c1sC` the budget is spent with no balls and the
phase is playing, yet the tick ends in `gameOver`, not card selection —
refuting the claim's unconditional "exactly when". -/
theorem wave_completion_exactly_when_false :
    20 * (11/10 : ℚ) ^ (c1sC.wave - 1) ≤ c1sC.waveWeightSpawned ∧ c1sC.balls = [] ∧
    c1sC.gamePhase = .playing ∧ (gameTick c1sC env0).gamePhase = .gameOver := by
  refine ⟨by norm_num [c1sC, c1sW], rfl, rfl, ?_⟩
  rw [gameTick_gamePhase,
    checkGameOver_fires { c1sC with tickCount := c1sC.tickCount + 1 } (by decide) rfl,
    spawnSection_inactive _ env0 (by simp),
    cardEndSection_skip _ env0 (by simp)]

/-- C3: from the card-selection phase, a tick returns to playing exactly when
every currently connected player has selected or the deadline has elapsed;
on that transition the wave counter increments by one and the spent budget
resets to zero, and otherwise phase, wave and budget are unchanged. -/
theorem cardSelection_end_transition (s : GameState) (e : Env)
    (h : s.gamePhase = .cardSelection) :
    ((gameTick s e).gamePhase = .playing ↔
      (s.players.all (·.cardSelected) = true ∨ s.cardSelectionEndTime ≤ e.now)) ∧
    ((s.players.all (·.cardSelected) = true ∨ s.cardSelectionEndTime ≤ e.now) →
      (gameTick s e).wave = s.wave + 1 ∧ (gameTick s e).waveWeightSpawned = 0) ∧
    (¬(s.players.all (·.cardSelected) = true ∨ s.cardSelectionEndTime ≤ e.now) →
      (gameTick s e).gamePhase = .cardSelection ∧ (gameTick s e).wave = s.wave ∧
      (gameTick s e).waveWeightSpawned = s.waveWeightSpawned) := by
  by_cases hd : s.players.all (·.cardSelected) = true ∨ s.cardSelectionEndTime ≤ e.now
  · obtain ⟨h1, h2, h3⟩ := gameTick_cardSelection_done s e h hd
    exact ⟨⟨fun _ => hd, fun _ => h1⟩, fun _ => ⟨h2, h3⟩, fun hnd => absurd hd hnd⟩
  · obtain ⟨h1, h2, h3⟩ := gameTick_cardSelection_stay s e h hd
    exact ⟨⟨fun hpl => absurd (h1.symm.trans hpl) (by decide), fun hdd => absurd hdd hd⟩,
      fun hdd => absurd hdd hd, fun _ => ⟨h1, h2, h3⟩⟩

/-- C3 witness state: card selection with one player who has selected. -/
def c3sW : GameState :=
  { c1sW with
    gamePhase := .cardSelection
    cardSelectionEndTime := 100000
    players := [{ newPlayer 1 with
      offeredCards := some [.critical, .critical, .critical]
      cardSelected := true }] }

/-- C3 witness: in `c3sW` every player has selected, so the tick transitions to
playing and advances the wave with the budget reset. -/
theorem cardSelection_end_transition_witness :
    (gameTick c3sW env0).gamePhase = .playing ∧ (gameTick c3sW env0).wave = c3sW.wave + 1 ∧
    (gameTick c3sW env0).waveWeightSpawned = 0 := by
  obtain ⟨h1, h2, h3⟩ := cardSelection_end_transition c3sW env0 rfl
  refine ⟨h1.mpr (Or.inl (by decide)), ?_⟩
  exact h2 (Or.inl (by decide))

/-- C10: with no connected players, a card-selection tick transitions straight
back to playing whatever the deadline, because the all-selected test is
vacuously true on the empty player list. -/
theorem cardSelection_empty_players (s : GameState) (e : Env)
    (h : s.gamePhase = .cardSelection) (hp : s.players = []) :
    (gameTick s e).gamePhase = .playing ∧ (gameTick s e).wave = s.wave + 1 := by
  have hd : s.players.all (·.cardSelected) = true ∨ s.cardSelectionEndTime ≤ e.now :=
    Or.inl (by rw [hp]; rfl)
  obtain ⟨h1, h2, _⟩ := gameTick_cardSelection_done s e h hd
  exact ⟨h1, h2⟩

/-- C10 witness state: card selection with an empty players map and a deadline
far in the future. -/
def c10sW : GameState :=
  { c1sW with
    gamePhase := .cardSelection
    players := []
    cardSelectionEndTime := 100000 }

/-- C10 witness: `c10sW`'s deadline (100000) has not elapsed at time 0, yet the
tick transitions back to playing. -/
theorem cardSelection_empty_players_witness :
    ¬(c10sW.cardSelectionEndTime ≤ env0.now) ∧ (gameTick c10sW env0).gamePhase = .playing := by
  exact ⟨by decide, (cardSelection_empty_players c10sW env0 rfl rfl).1⟩

/-- C8: a playing tick with no lives left moves to `gameOver`, and any tick
executed in the `gameOver` phase leaves every player (in particular every
player position) unchanged, whatever the players' key states are. -/
theorem gameOver_transition_and_freeze (s : GameState) (e : Env) :
    (s.gamePhase = .playing → s.lives ≤ 0 → (gameTick s e).gamePhase = .gameOver) ∧
    (s.gamePhase = .gameOver → (gameTick s e).players = s.players) := by
  constructor
  · intro h hl
    rw [gameTick_gamePhase,
      checkGameOver_fires { s with tickCount := s.tickCount + 1 } hl h,
      spawnSection_inactive _ e (by simp),
      cardEndSection_skip _ e (by simp)]
  · intro h
    rw [gameTick_players,
      checkGameOver_id { s with tickCount := s.tickCount + 1 } (Or.inr (by simp [h])),
      spawnSection_inactive _ e (by simp [h]),
      cardEndSection_skip _ e (by simp [h]),
      inputSection_gameOver { s with tickCount := s.tickCount + 1 } h]

/-- C8 witness state: a game-over state whose only player is holding all four
movement keys. -/
def c8sW : GameState :=
  { c1sW with
    gamePhase := .gameOver
    lives := 0
    players := [{ newPlayer 1 with keys := ⟨true, true, true, true⟩ }] }

/-- C8 witness: a tick in `c8sW` leaves the key-holding player untouched, and
the same state restarted as playing transitions to `gameOver`. -/
theorem gameOver_transition_and_freeze_witness :
    (gameTick c8sW env0).players = c8sW.players ∧
    (gameTick { c8sW with gamePhase := .playing } env0).gamePhase = .gameOver := by
  exact ⟨(gameOver_transition_and_freeze c8sW env0).2 rfl,
    (gameOver_transition_and_freeze { c8sW with gamePhase := .playing } env0).1 rfl (by decide)⟩

/-- C6: after `resetGame`, the phase is playing, the wave counter is 1, the
shared lives equal the initial value, the bullet and ball sets are empty, and
every connected player's modifiers are back at their defaults — zero for all
chances, levels, melee damage and bounce count, one for bullet count — with no
offered cards. -/
theorem resetGame_spec (s : GameState) :
    (resetGame s).gamePhase = .playing ∧ (resetGame s).wave = 1 ∧
    (resetGame s).lives = INITIAL_LIVES ∧ (resetGame s).bullets = [] ∧
    (resetGame s).balls = [] ∧
    ∀ p ∈ (resetGame s).players,
      p.criticalChance = 0 ∧ p.pierceChance = 0 ∧ p.areaDamageLevel = 0 ∧
      p.bulletCount = 1 ∧ p.pusherChance = 0 ∧ p.ignitionChance = 0 ∧
      p.meleeDamage = 0 ∧ p.bounceCount = 0 ∧ p.offeredCards = none := by
  refine ⟨rfl, rfl, rfl, rfl, rfl, ?_⟩
  intro p hp
  simp only [resetGame, List.mem_map] at hp
  obtain ⟨q, -, rfl⟩ := hp
  exact ⟨rfl, rfl, rfl, rfl, rfl, rfl, rfl, rfl, rfl⟩

/-- C6 witness: resetting the card-selection witness state (whose player holds
an offering and upgrades) restores all the defaults. -/
theorem resetGame_spec_witness :
    (resetGame c3sW).wave = 1 ∧ (resetGame c3sW).lives = INITIAL_LIVES ∧
    ∀ p ∈ (resetGame c3sW).players, p.bulletCount = 1 ∧ p.offeredCards = none := by
  obtain ⟨-, h2, h3, -, -, h6⟩ := resetGame_spec c3sW
  exact ⟨h2, h3, fun p hp => ⟨(h6 p hp).2.2.2.1, (h6 p hp).2.2.2.2.2.2.2.2⟩⟩

/-- C4: a `selectCard` request that arrives outside the card-selection phase,
or from a player who has already selected during the current offering, or
whose index does not pick one of the player's currently offered cards, leaves
the whole game state unchanged (and, the handler being total, reports no
error). -/
theorem selectCard_invalid_noop (s : GameState) (pid : ℕ) (i : ℤ) (p : Player)
    (hp : s.players.find? (·.id == pid) = some p)
    (h : s.gamePhase ≠ .cardSelection ∨ p.cardSelected = true ∨ offeredCardAt p i = none) :
    selectCard s pid i = s := by
  unfold selectCard
  rw [hp]
  dsimp only
  rcases h with h | h | h
  · rw [if_pos (Or.inl h)]
  · rw [if_pos (Or.inr (Or.inr h))]
  · by_cases hg : s.gamePhase ≠ .cardSelection ∨ p.offeredCards = none ∨ p.cardSelected = true
    · rw [if_pos hg]
    · rw [if_neg hg, h]

/-- C4 witness state: card selection with one player offered three cards. -/
def c4sW : GameState :=
  { c1sW with
    gamePhase := .cardSelection
    players := [{ newPlayer 1 with offeredCards := some [.critical, .extraLife, .melee] }] }

/-- C4 witness: an out-of-range index (3), a negative index, and a request in
the playing phase are all no-ops on `c4sW`. -/
theorem selectCard_invalid_noop_witness :
    selectCard c4sW 1 3 = c4sW ∧ selectCard c4sW 1 (-1) = c4sW ∧
    selectCard { c4sW with gamePhase := .playing } 1 0 = { c4sW with gamePhase := .playing } := by
  refine ⟨?_, ?_, ?_⟩
  · exact selectCard_invalid_noop c4sW 1 3 _ (by rfl) (Or.inr (Or.inr (by rfl)))
  · exact selectCard_invalid_noop c4sW 1 (-1) _ (by rfl) (Or.inr (Or.inr (by rfl)))
  · exact selectCard_invalid_noop { c4sW with gamePhase := .playing } 1 0 _ (by rfl)
      (Or.inl (by decide))

/-! ## Ball movement and shared lives (C5) -/

lemma checkGameOver_lives (s : GameState) : (checkGameOver s).lives = s.lives := by
  unfold checkGameOver; split <;> rfl

lemma spawnTry_lives (s : GameState) (e : Env) : (spawnTry s e).lives = s.lives := by
  unfold spawnTry; split <;> rfl

lemma spawnWaveCheck_lives (s : GameState) (e : Env) : (spawnWaveCheck s e).lives = s.lives := by
  unfold spawnWaveCheck; split <;> rfl

lemma spawnSection_lives (s : GameState) (e : Env) : (spawnSection s e).lives = s.lives := by
  unfold spawnSection
  split
  · rw [spawnWaveCheck_lives, spawnTry_lives]
  · rfl

lemma cardEndSection_lives (s : GameState) (e : Env) : (cardEndSection s e).lives = s.lives := by
  unfold cardEndSection
  split
  · split <;> rfl
  · rfl

/-- The shared lives are untouched from the start of the tick until the
ball-movement block. -/
lemma gameTickMid_lives (s : GameState) (e : Env) : (gameTickMid s e).1.lives = s.lives := by
  simp only [gameTickMid, burnSection_fst_lives, spawnBulletsSection_lives,
    moveBulletsSection_lives, collisionSection_fst_lives, inputSection_lives,
    cardEndSection_lives, spawnSection_lives, checkGameOver_lives]

/-- The ball-movement loop deducts exactly one life per ball whose moved
position crosses the bottom boundary. -/
lemma moveBallsLoop_lives (l : List Ball) (rem : Finset ℕ) (lives : ℤ) :
    (moveBallsLoop l rem lives).2.2 =
      lives - ((l.filter (fun b => decide (ROOM_HEIGHT + b.radius < b.y + b.speed))).length : ℤ) := by
  induction l generalizing rem lives with
  | nil => simp [moveBallsLoop]
  | cons b rest ih =>
    by_cases hc : ROOM_HEIGHT + b.radius < b.y + b.speed
    · rw [List.filter_cons_of_pos (by simpa using hc)]
      simp only [moveBallsLoop, if_pos hc, ih, List.length_cons]
      push_cast
      ring
    · rw [List.filter_cons_of_neg (by simpa using hc)]
      simp only [moveBallsLoop, if_neg hc, ih]

/-- The pending-removal set only grows through the ball-movement loop. -/
lemma moveBallsLoop_rem_subset (l : List Ball) (rem : Finset ℕ) (lives : ℤ) :
    rem ⊆ (moveBallsLoop l rem lives).2.1 := by
  induction l generalizing rem lives with
  | nil => simp [moveBallsLoop]
  | cons b rest ih =>
    intro x hx
    simp only [moveBallsLoop]
    split
    · exact ih (insert b.id rem) (lives - 1) (Finset.mem_insert_of_mem hx)
    · exact ih rem lives hx

/-- Every ball that crosses the bottom boundary ends up in the pending-removal
set. -/
lemma moveBallsLoop_crossing_mem (l : List Ball) (rem : Finset ℕ) (lives : ℤ)
    (b : Ball) (hb : b ∈ l) (hc : ROOM_HEIGHT + b.radius < b.y + b.speed) :
    b.id ∈ (moveBallsLoop l rem lives).2.1 := by
  induction l generalizing rem lives with
  | nil => cases hb
  | cons a rest ih =>
    rcases List.mem_cons.mp hb with rfl | hmem
    · simp only [moveBallsLoop, if_pos hc]
      exact moveBallsLoop_rem_subset rest _ _ (Finset.mem_insert_self b.id rem)
    · simp only [moveBallsLoop]
      split
      · exact ih _ _ hmem
      · exact ih _ _ hmem

lemma max_zero_of_ite (x : ℤ) : (if x < 0 then 0 else x) = max 0 x := by
  rcases lt_or_ge x 0 with h | h
  · rw [if_pos h, max_eq_left h.le]
  · rw [if_neg (not_lt.mpr h), max_eq_right h]

/-- The ball-movement block ends with lives clamped at the pre-clamp value
minus one per ball that crossed the bottom boundary. -/
lemma moveBallsSection_lives_eq (s : GameState) (rem : Finset ℕ) :
    (moveBallsSection s rem).lives =
      max 0 (s.lives -
        ((s.balls.filter (fun b => decide (ROOM_HEIGHT + b.radius < b.y + b.speed))).length : ℤ)) := by
  unfold moveBallsSection
  rw [show ({ s with
      balls := (moveBallsLoop s.balls rem s.lives).1.filter
        (fun b => decide (b.id ∉ (moveBallsLoop s.balls rem s.lives).2.1)),
      lives := if (moveBallsLoop s.balls rem s.lives).2.2 < 0 then 0
        else (moveBallsLoop s.balls rem s.lives).2.2 } : GameState).lives
    = (if (moveBallsLoop s.balls rem s.lives).2.2 < 0 then 0
        else (moveBallsLoop s.balls rem s.lives).2.2) from rfl]
  rw [max_zero_of_ite, moveBallsLoop_lives]

/-- No ball that crossed the bottom boundary survives the ball-movement block. -/
lemma moveBallsSection_removed (s : GameState) (rem : Finset ℕ) (b : Ball)
    (hb : b ∈ s.balls) (hc : ROOM_HEIGHT + b.radius < b.y + b.speed) :
    ∀ b2 ∈ (moveBallsSection s rem).balls, b2.id ≠ b.id := by
  intro b2 hb2 heq
  have hmem : b2 ∈ (moveBallsLoop s.balls rem s.lives).1 ∧
      b2.id ∉ (moveBallsLoop s.balls rem s.lives).2.1 := by
    have h := List.mem_filter.mp hb2
    exact ⟨h.1, by simpa using h.2⟩
  exact hmem.2 (heq ▸ moveBallsLoop_crossing_mem s.balls rem s.lives b hb hc)

/-- C5: the state emitted at the end of every tick has non-negative shared
lives; before the clamp, the ball-movement block deducts exactly one life per
ball that crosses the bottom boundary (lives being untouched elsewhere in the
tick), and every crossing ball is removed in that same tick. -/
theorem shared_lives_accounting (s : GameState) (e : Env) :
    0 ≤ (gameTick s e).lives ∧
    (gameTickMid s e).1.lives = s.lives ∧
    (gameTick s e).lives = max 0 ((gameTickMid s e).1.lives -
      (((gameTickMid s e).1.balls.filter
        (fun b => decide (ROOM_HEIGHT + b.radius < b.y + b.speed))).length : ℤ)) ∧
    ∀ b ∈ (gameTickMid s e).1.balls, ROOM_HEIGHT + b.radius < b.y + b.speed →
      ∀ b2 ∈ (gameTick s e).balls, b2.id ≠ b.id := by
  have heq : gameTick s e = moveBallsSection (gameTickMid s e).1 (gameTickMid s e).2 := rfl
  refine ⟨?_, gameTickMid_lives s e, ?_, ?_⟩
  · rw [heq, moveBallsSection_lives_eq]
    exact le_max_left _ _
  · rw [heq, moveBallsSection_lives_eq]
  · intro b hb hc b2 hb2
    rw [heq] at hb2
    exact moveBallsSection_removed _ _ b hb hc b2 hb2

/-- C5 witness: the accounting instantiated at the game-over witness state. -/
theorem shared_lives_accounting_witness :
    0 ≤ (gameTick c8sW env0).lives ∧ (gameTickMid c8sW env0).1.lives = c8sW.lives :=
  ⟨(shared_lives_accounting c8sW env0).1, (shared_lives_accounting c8sW env0).2.1⟩

/-! ## Swept-collision geometry (C2) -/

lemma hypot_nonneg (x y : ℝ) : 0 ≤ hypot x y := Real.sqrt_nonneg _

lemma hypot_zero : hypot 0 0 = 0 := by simp [hypot]

/-- The clamped projection minimises the distance over the segment: the
distance computed by `pointToSegmentDist` is at most the distance to the
segment point at any parameter `u ∈ [0,1]`. -/
lemma pointToSegmentDist_min (px py x1 y1 x2 y2 u : ℝ) (h0 : 0 ≤ u) (h1 : u ≤ 1) :
    pointToSegmentDist px py x1 y1 x2 y2 ≤
      hypot (px - (x1 + u * (x2 - x1))) (py - (y1 + u * (y2 - y1))) := by
  by_cases hL : (x2 - x1) * (x2 - x1) + (y2 - y1) * (y2 - y1) = 0
  · have hdx : x2 - x1 = 0 := by nlinarith [sq_nonneg (x2 - x1), sq_nonneg (y2 - y1)]
    have hdy : y2 - y1 = 0 := by nlinarith [sq_nonneg (x2 - x1), sq_nonneg (y2 - y1)]
    simp only [pointToSegmentDist, if_pos hL]
    rw [hdx, hdy]
    simp only [mul_zero, add_zero]
    exact le_refl _
  · simp only [pointToSegmentDist, if_neg hL]
    set L := (x2 - x1) * (x2 - x1) + (y2 - y1) * (y2 - y1) with hLdef
    have hLpos : 0 < L :=
      lt_of_le_of_ne (add_nonneg (mul_self_nonneg _) (mul_self_nonneg _)) (Ne.symm hL)
    set t0 := ((px - x1) * (x2 - x1) + (py - y1) * (y2 - y1)) / L with ht0def
    set tc := max 0 (min 1 t0) with htcdef
    have key : (tc - t0) ^ 2 ≤ (u - t0) ^ 2 := by
      rcases lt_or_ge t0 0 with ht | ht
      · have htc : tc = 0 := by
          rw [htcdef, min_eq_right (le_of_lt (lt_of_lt_of_le ht zero_le_one)), max_eq_left ht.le]
        rw [htc]
        nlinarith [mul_nonneg h0 (by linarith : (0:ℝ) ≤ u - 2 * t0)]
      · rcases le_or_lt t0 1 with ht1 | ht1
        · have htc : tc = t0 := by rw [htcdef, min_eq_right ht1, max_eq_right ht]
          rw [htc]
          simpa using sq_nonneg (u - t0)
        · have htc : tc = 1 := by rw [htcdef, min_eq_left ht1.le, max_eq_right zero_le_one]
          rw [htc]
          nlinarith [mul_nonneg (by linarith : (0:ℝ) ≤ 1 - u)
            (by linarith : (0:ℝ) ≤ 2 * t0 - 1 - u)]
    have hD : ((px - x1) * (x2 - x1) + (py - y1) * (y2 - y1)) - t0 * L = 0 := by
      rw [ht0def, div_mul_cancel₀ _ hL, sub_self]
    unfold hypot
    apply Real.sqrt_le_sqrt
    have expand :
        (px - (x1 + tc * (x2 - x1))) ^ 2 + (py - (y1 + tc * (y2 - y1))) ^ 2 -
          ((px - (x1 + u * (x2 - x1))) ^ 2 + (py - (y1 + u * (y2 - y1))) ^ 2) =
        L * ((tc - t0) ^ 2 - (u - t0) ^ 2) +
          2 * (u - tc) * (((px - x1) * (x2 - x1) + (py - y1) * (y2 - y1)) - t0 * L) := by
      rw [hLdef]; ring
    rw [hD] at expand
    have hprod : L * ((tc - t0) ^ 2 - (u - t0) ^ 2) ≤ 0 :=
      mul_nonpos_of_nonneg_of_nonpos hLpos.le (by linarith)
    nlinarith [expand, hprod]

/-- The swept test `pointToSegmentDist ≤ r` holds exactly when some point of
the movement segment is within `r` of the query point. -/
lemma pointToSegmentDist_le_iff (px py x1 y1 x2 y2 r : ℝ) :
    pointToSegmentDist px py x1 y1 x2 y2 ≤ r ↔
      ∃ u, 0 ≤ u ∧ u ≤ 1 ∧
        hypot (px - (x1 + u * (x2 - x1))) (py - (y1 + u * (y2 - y1))) ≤ r := by
  constructor
  · intro h
    by_cases hL : (x2 - x1) * (x2 - x1) + (y2 - y1) * (y2 - y1) = 0
    · refine ⟨0, le_refl 0, zero_le_one, ?_⟩
      have hdx : x2 - x1 = 0 := by nlinarith [sq_nonneg (x2 - x1), sq_nonneg (y2 - y1)]
      have hdy : y2 - y1 = 0 := by nlinarith [sq_nonneg (x2 - x1), sq_nonneg (y2 - y1)]
      rw [hdx, hdy]
      simp only [mul_zero, add_zero]
      simpa only [pointToSegmentDist, if_pos hL] using h
    · refine ⟨max 0 (min 1 (((px - x1) * (x2 - x1) + (py - y1) * (y2 - y1)) /
        ((x2 - x1) * (x2 - x1) + (y2 - y1) * (y2 - y1)))), le_max_left _ _,
        max_le zero_le_one (min_le_left _ _), ?_⟩
      simpa only [pointToSegmentDist, if_neg hL] using h
  · rintro ⟨u, h0, h1, hu⟩
    exact le_trans (pointToSegmentDist_min px py x1 y1 x2 y2 u h0 h1) hu

/-- C2: a bullet-ball collision is detected in a tick precisely when the
ball's centre lies within (bullet radius + ball radius) of some point of the
bullet's movement segment for that tick; and a bullet placed straight below a
stationary ball at distance `d > 0`, moving `S > 0` px per tick toward it, is
detected as colliding at some tick `n ≤ ⌈d / S⌉` (at tick `n` its pre-movement
position is `d - (n-1)·S` from the ball's centre). -/
theorem swept_collision_spec (bullet : Bullet) (ball : Ball) (moveX moveY : ℝ)
    (S d : ℝ) (hS : 0 < S) (hd : 0 < d)
    (hr : 0 ≤ bullet.radius + (ball.radius : ℝ)) :
    (bulletHitsBall bullet ball moveX moveY ↔
      ∃ u, 0 ≤ u ∧ u ≤ 1 ∧
        hypot ((ball.x : ℝ) - (bullet.x + u * moveX)) ((ball.y : ℝ) - (bullet.y + u * moveY)) ≤
          bullet.radius + (ball.radius : ℝ)) ∧
    ∃ n : ℤ, 1 ≤ n ∧ n ≤ ⌈d / S⌉ ∧
      bulletHitsBall
        { bullet with x := (ball.x : ℝ), y := (ball.y : ℝ) + d - ((n : ℝ) - 1) * S }
        ball 0 (-S) := by
  constructor
  · unfold bulletHitsBall
    rw [pointToSegmentDist_le_iff]
    constructor
    · rintro ⟨u, h0, h1, hu⟩
      refine ⟨u, h0, h1, ?_⟩
      have hx : bullet.x + moveX - bullet.x = moveX := by ring
      have hy : bullet.y + moveY - bullet.y = moveY := by ring
      rwa [hx, hy] at hu
    · rintro ⟨u, h0, h1, hu⟩
      refine ⟨u, h0, h1, ?_⟩
      have hx : bullet.x + moveX - bullet.x = moveX := by ring
      have hy : bullet.y + moveY - bullet.y = moveY := by ring
      rwa [hx, hy]
  · have hds : 0 < d / S := div_pos hd hS
    have hn1 : 1 ≤ ⌈d / S⌉ := Int.ceil_pos.mpr hds
    have hub : d / S ≤ ((⌈d / S⌉ : ℤ) : ℝ) := Int.le_ceil _
    have hlb : ((⌈d / S⌉ : ℤ) : ℝ) < d / S + 1 := Int.ceil_lt_add_one _
    refine ⟨⌈d / S⌉, hn1, le_refl _, ?_⟩
    unfold bulletHitsBall
    rw [pointToSegmentDist_le_iff]
    have hcpos : 0 < d - (((⌈d / S⌉ : ℤ) : ℝ) - 1) * S := by
      have : (((⌈d / S⌉ : ℤ) : ℝ) - 1) * S < d / S * S := by
        apply mul_lt_mul_of_pos_right _ hS
        linarith
      rw [div_mul_cancel₀ _ (ne_of_gt hS)] at this
      linarith
    refine ⟨(d - (((⌈d / S⌉ : ℤ) : ℝ) - 1) * S) / S, le_of_lt (div_pos hcpos hS), ?_, ?_⟩
    · rw [div_le_one hS]
      have : d ≤ ((⌈d / S⌉ : ℤ) : ℝ) * S := by
        have := mul_le_mul_of_nonneg_right hub hS.le
        rwa [div_mul_cancel₀ _ (ne_of_gt hS)] at this
      linarith
    · have hA : (ball.x : ℝ) -
          ((ball.x : ℝ) + (d - (((⌈d / S⌉ : ℤ) : ℝ) - 1) * S) / S * ((ball.x : ℝ) + 0 - (ball.x : ℝ)))
          = 0 := by ring
      have hB : (ball.y : ℝ) -
          (((ball.y : ℝ) + d - (((⌈d / S⌉ : ℤ) : ℝ) - 1) * S) +
            (d - (((⌈d / S⌉ : ℤ) : ℝ) - 1) * S) / S *
              (((ball.y : ℝ) + d - (((⌈d / S⌉ : ℤ) : ℝ) - 1) * S + -S) -
                ((ball.y : ℝ) + d - (((⌈d / S⌉ : ℤ) : ℝ) - 1) * S))) = 0 := by
        have hSne : S ≠ 0 := ne_of_gt hS
        field_simp
        ring
      rw [hA, hB, hypot_zero]
      exact hr

/-- C2 witness bullet: a standard bullet at (100, 500). -/
noncomputable def c2Bullet : Bullet :=
  { id := 1, x := 100, y := 500, ownerId := some 1, radius := BULLET_RADIUS,
    vx := none, vy := none, bouncesLeft := none, homing := false,
    targetBallId := none, damage := none, mx := none, my := none }

/-- C2 witness ball: a normal-type ball at (100, 400), 100 px above the bullet. -/
def c2Ball : Ball :=
  { id := 2, x := 100, y := 400, type := .normal, hp := 20, maxHp := 20, speed := 7,
    radius := 44, burnEndTick := none }

/-- C2 witness: the collision characterisation instantiated at the concrete
bullet speed 75 and distance 100. -/
theorem swept_collision_spec_witness :
    (0:ℝ) < 75 ∧ (0:ℝ) < 100 ∧
    ((bulletHitsBall c2Bullet c2Ball 0 (-75) ↔ ∃ u, 0 ≤ u ∧ u ≤ 1 ∧
        hypot ((c2Ball.x : ℝ) - (c2Bullet.x + u * 0))
          ((c2Ball.y : ℝ) - (c2Bullet.y + u * (-75))) ≤
          c2Bullet.radius + (c2Ball.radius : ℝ)) ∧
      ∃ n : ℤ, 1 ≤ n ∧ n ≤ ⌈(100:ℝ) / 75⌉ ∧
        bulletHitsBall
          { c2Bullet with x := (c2Ball.x : ℝ), y := (c2Ball.y : ℝ) + 100 - ((n:ℝ) - 1) * 75 }
          c2Ball 0 (-75)) :=
  ⟨by norm_num, by norm_num,
    swept_collision_spec c2Bullet c2Ball 0 (-75) 75 100 (by norm_num) (by norm_num)
      (by norm_num [c2Bullet, c2Ball, BULLET_RADIUS])⟩

/-! ## Homing bullets and ownership (C9) -/

/-- Every bullet added by the straight-bullet loop carries the spawning
player's id. -/
lemma spawnStraightAux_mem (p : Player) (l : List ℕ) (st : List Bullet × ℕ) (b : Bullet)
    (hb : b ∈ (l.foldl
      (fun (st : List Bullet × ℕ) i => (st.1 ++ [straightBullet p st.2 i], st.2 + 1)) st).1) :
    b ∈ st.1 ∨ b.ownerId = some p.id := by
  induction l generalizing st with
  | nil => exact Or.inl hb
  | cons i rest ih =>
    rcases ih (st.1 ++ [straightBullet p st.2 i], st.2 + 1) hb with h | h
    · rcases List.mem_append.mp h with h | h
      · exact Or.inl h
      · right
        rw [List.mem_singleton.mp h]
        rfl
    · exact Or.inr h

/-- Every bullet created for a player in one tick — straight or homing —
carries that player's id as its owner. -/
lemma spawnBulletsForPlayer_mem (tc : ℕ) (balls : List Ball) (st : List Bullet × ℕ)
    (p : Player) (b : Bullet) (hb : b ∈ (spawnBulletsForPlayer tc balls st p).1) :
    b ∈ st.1 ∨ b.ownerId = some p.id := by
  unfold spawnBulletsForPlayer at hb
  have hstraight : ∀ b2, b2 ∈ (spawnStraightBullets p st).1 → b2 ∈ st.1 ∨ b2.ownerId = some p.id :=
    fun b2 hb2 => spawnStraightAux_mem p (List.range p.bulletCount) st b2 hb2
  split at hb
  · split at hb
    · rcases List.mem_append.mp hb with h | h
      · exact hstraight b h
      · right
        rw [List.mem_singleton.mp h]
        rfl
    · exact hstraight b hb
  · exact hstraight b hb

/-- Every bullet added by the whole player fold is owned by one of the
players. -/
lemma spawnBullets_fold_mem (tc : ℕ) (balls : List Ball) (ps : List Player)
    (st : List Bullet × ℕ) (b : Bullet)
    (hb : b ∈ (ps.foldl (spawnBulletsForPlayer tc balls) st).1) :
    b ∈ st.1 ∨ ∃ p ∈ ps, b.ownerId = some p.id := by
  induction ps generalizing st with
  | nil => exact Or.inl hb
  | cons p rest ih =>
    rcases ih (spawnBulletsForPlayer tc balls st p) hb with h | ⟨q, hq, hqo⟩
    · rcases spawnBulletsForPlayer_mem tc balls st p b h with h2 | h2
      · exact Or.inl h2
      · exact Or.inr ⟨p, List.mem_cons_self p rest, h2⟩
    · exact Or.inr ⟨q, List.mem_cons_of_mem p hq, hqo⟩

/-- Every bullet present after the spawning block was either already present
or is owned (via `ownerId`) by a connected player. -/
lemma spawnBulletsSection_mem (s : GameState) (b : Bullet)
    (hb : b ∈ (spawnBulletsSection s).bullets) :
    b ∈ s.bullets ∨ ∃ p ∈ s.players, b.ownerId = some p.id := by
  unfold spawnBulletsSection at hb
  split at hb
  · exact spawnBullets_fold_mem s.tickCount s.balls s.players (s.bullets, s.nextBulletId) b hb
  · exact Or.inl hb

/-- C9 (amended): every bullet the spawning block creates — homing melee
bullets included — carries the creating player's id in `ownerId` (so homing
bullets are not ownerless); nevertheless the collision pass treats a homing
bullet as system-owned: its processing is independent of the players list, so
no per-player modifier (critical, pierce, area damage, pusher, ignition) is
ever applied on its hits. -/
theorem homing_bullets_spec :
    (∀ (s : GameState) (b : Bullet), b ∈ (spawnBulletsSection s).bullets →
      b ∈ s.bullets ∨ ∃ p ∈ s.players, b.ownerId = some p.id) ∧
    (∀ (players1 players2 : List Player) (e : Env) (tickCount : ℕ)
      (st : CollisionAcc × List Bullet) (b : Bullet), b.homing = true →
      bulletStep players1 e tickCount st b = bulletStep players2 e tickCount st b) := by
  constructor
  · exact fun s b hb => spawnBulletsSection_mem s b hb
  · intro p1 p2 e tc st b hb
    simp only [bulletStep, hb, if_true]

/-- C9 counterexample player: the default player with one melee level. -/
def c9Player : Player := { newPlayer 1 with meleeDamage := 1 }

/-- C9 counterexample ball: a normal ball exactly at the player's position. -/
def c9Ball : Ball :=
  { id := 7, x := ROOM_WIDTH / 2, y := ROOM_HEIGHT - 80, type := .normal,
    hp := 20, maxHp := 20, speed := 7, radius := 44, burnEndTick := none }

/-- C9 counterexample state: a started playing state with a melee player and a
ball at the player's own position, on a melee tick. -/
def c9State : GameState :=
  { c1sW with
    players := [c9Player]
    balls := [c9Ball]
    tickCount := 4 }

/-- C9 counterexample: the homing melee bullet created in `c9State` has
`ownerId = some 1` — an owning player — refuting "homing bullets have no
owning player". -/
theorem homing_bullet_unowned_false :
    ∃ b ∈ (spawnBulletsSection c9State).bullets,
      b.homing = true ∧ b.ownerId = some 1 ∧ b.ownerId ≠ none := by
  unfold spawnBulletsSection
  rw [if_pos ⟨rfl, rfl, by decide⟩]
  refine ⟨homingBullet c9Player 2 7, ?_, rfl, rfl, by simp [homingBullet]⟩
  show _ ∈ ([c9Player].foldl
    (spawnBulletsForPlayer c9State.tickCount c9State.balls)
    (c9State.bullets, c9State.nextBulletId)).1
  rw [List.foldl_cons, List.foldl_nil]
  unfold spawnBulletsForPlayer
  rw [if_pos ⟨by decide, by decide⟩]
  have hstraight : spawnStraightBullets c9Player
      (c9State.bullets, c9State.nextBulletId) = ([straightBullet c9Player 1 0], 2) := by
    unfold spawnStraightBullets
    rw [show List.range c9Player.bulletCount = [0] from rfl, List.foldl_cons, List.foldl_nil]
    rfl
  have hnear : (nearestMeleeTarget c9Player c9State.balls).1 = some c9Ball := by
    unfold nearestMeleeTarget
    rw [show c9State.balls = [c9Ball] from rfl, List.foldl_cons, List.foldl_nil]
    rw [if_pos]
    rw [show (c9Ball.x : ℝ) - (c9Player.x : ℝ) = 0 by
        rw [show c9Ball.x = c9Player.x from rfl, sub_self],
      show (c9Ball.y : ℝ) - (c9Player.y : ℝ) = 0 by
        rw [show c9Ball.y = c9Player.y from rfl, sub_self],
      hypot_zero]
    norm_num [MELEE_RANGE]
  rw [hstraight, hnear]
  simp only [List.mem_append, List.mem_singleton]
  exact Or.inr rfl

/-- C9 witness: processing the concrete homing bullet against a ball is the
same with the player list present as with it empty. -/
theorem homing_bullets_spec_witness :
    bulletStep [c9Player] env0 4 (⟨[c9Ball], ∅, ∅, [], []⟩, []) (homingBullet c9Player 2 7) =
      bulletStep [] env0 4 (⟨[c9Ball], ∅, ∅, [], []⟩, []) (homingBullet c9Player 2 7) :=
  homing_bullets_spec.2 [c9Player] [] env0 4 (⟨[c9Ball], ∅, ∅, [], []⟩, [])
    (homingBullet c9Player 2 7) rfl

/-! ## Client reconciliation (C7) -/

/-- C7: with exactly two buffered snapshots at receipt times `t0 ≤ t1` and the
render time `r = now − INTERP_DELAY_MS` lying between them, the reconciler
produces a state in which every player and ball present in both snapshots is
linearly interpolated at the clamped fraction `(r − t0)/(t1 − t0)`; every
homing bullet is rendered exactly at its last reported position; and every
other bullet is rendered at the newest snapshot's position extrapolated
forward by its known (or default straight-up) velocity times the wall-clock
time elapsed since that snapshot. -/
theorem client_interpolation_spec (t0 t1 now : ℚ) (s0 s1 : Client.CState)
    (h0 : t0 ≤ now - Client.INTERP_DELAY_MS) (h1 : now - Client.INTERP_DELAY_MS ≤ t1) :
    ∃ st, Client.getInterpolatedState [⟨t0, s0⟩, ⟨t1, s1⟩] now = some st ∧
      (∀ pb ∈ s1.players, ∀ pa, s0.players.find? (·.id == pb.id) = some pa →
        ({ pb with
            x := Client.lerp pa.x pb.x
              (min 1 (max 0 ((now - Client.INTERP_DELAY_MS - t0) / (t1 - t0))))
            y := Client.lerp pa.y pb.y
              (min 1 (max 0 ((now - Client.INTERP_DELAY_MS - t0) / (t1 - t0)))) } : Client.CPlayer)
          ∈ st.players) ∧
      (∀ bb ∈ s1.balls, ∀ ba, s0.balls.find? (·.id == bb.id) = some ba →
        ({ bb with
            x := Client.lerp ba.x bb.x
              (min 1 (max 0 ((now - Client.INTERP_DELAY_MS - t0) / (t1 - t0))))
            y := Client.lerp ba.y bb.y
              (min 1 (max 0 ((now - Client.INTERP_DELAY_MS - t0) / (t1 - t0)))) } : Client.CBall)
          ∈ st.balls) ∧
      (∀ bb ∈ s1.bullets, bb.homing = true → bb ∈ st.bullets) ∧
      (∀ bb ∈ s1.bullets, bb.homing = false →
        ({ bb with
            x := bb.x + (bb.vx.getD 0) * ((now - t1) / Client.SERVER_TICK_MS)
            y := bb.y + (bb.vy.getD (-Client.BULLET_SPEED)) * ((now - t1) / Client.SERVER_TICK_MS) }
          : Client.CBullet) ∈ st.bullets) := by
  have haeq : min 1 (max 0 ((now - Client.INTERP_DELAY_MS - t0) /
        (if t1 - t0 = 0 then (1:ℚ) else t1 - t0)))
      = min 1 (max 0 ((now - Client.INTERP_DELAY_MS - t0) / (t1 - t0))) := by
    by_cases hdt : t1 - t0 = 0
    · have hrt : now - Client.INTERP_DELAY_MS - t0 = 0 := by
        have h2 : now - Client.INTERP_DELAY_MS ≤ t0 := by linarith
        linarith
      rw [if_pos hdt, hrt, hdt]
      simp
    · rw [if_neg hdt]
  have hget : Client.getInterpolatedState [⟨t0, s0⟩, ⟨t1, s1⟩] now =
      some { Client.lerpState s0 s1
          (min 1 (max 0 ((now - Client.INTERP_DELAY_MS - t0) / (t1 - t0)))) with
        bullets := s1.bullets.map (Client.extrapolateBullet (now - t1)) } := by
    show some _ = _
    rw [if_neg (by simp : ¬([(⟨t1, s1⟩ : Client.Snapshot)] = []))]
    have hbr : Client.findBracket (now - Client.INTERP_DELAY_MS)
        [⟨t0, s0⟩, ⟨t1, s1⟩] = some (⟨t0, s0⟩, ⟨t1, s1⟩) := by
      unfold Client.findBracket
      rw [if_pos ⟨h0, h1⟩]
    rw [hbr]
    simp only [Option.getD_some, List.getLastD]
    rw [haeq]
    rfl
  refine ⟨_, hget, ?_, ?_, ?_, ?_⟩
  · intro pb hpb pa hpa
    show _ ∈ (Client.lerpState s0 s1 _).players
    unfold Client.lerpState
    refine List.mem_map.mpr ⟨pb, hpb, ?_⟩
    rw [hpa]
    rfl
  · intro bb hbb ba hba
    show _ ∈ (Client.lerpState s0 s1 _).balls
    unfold Client.lerpState
    refine List.mem_map.mpr ⟨bb, hbb, ?_⟩
    rw [hba]
    rfl
  · intro bb hbb hh
    refine List.mem_map.mpr ⟨bb, hbb, ?_⟩
    unfold Client.extrapolateBullet
    rw [if_pos hh]
  · intro bb hbb hh
    refine List.mem_map.mpr ⟨bb, hbb, ?_⟩
    unfold Client.extrapolateBullet
    rw [if_neg (by simp [hh])]
    by_cases hv : bb.vx ≠ none ∨ bb.vy ≠ none
    · rw [if_pos hv]
    · rw [if_neg hv]
      push_neg at hv
      obtain ⟨bid, bx, bY, bh, bvx, bvy⟩ := bb
      simp only at hv
      simp only [hv.1, hv.2, Option.getD_none]
      have hx : bx + 0 * ((now - t1) / Client.SERVER_TICK_MS) = bx := by ring
      have hy : bY - Client.PX_PER_MS_BULLET * (now - t1) =
          bY + -Client.BULLET_SPEED * ((now - t1) / Client.SERVER_TICK_MS) := by
        simp only [Client.PX_PER_MS_BULLET, Client.SERVER_TICK_MS, Client.BULLET_SPEED]
        ring
      rw [hx, ← hy]

/-- C7 witness: older snapshot state. -/
def c7s0 : Client.CState :=
  { players := [⟨1, 0, 0⟩]
    bullets := [⟨5, 10, 100, false, none, none⟩, ⟨6, 3, 4, true, none, none⟩]
    balls := [⟨2, 50, 50⟩] }

/-- C7 witness: newer snapshot state. -/
def c7s1 : Client.CState :=
  { players := [⟨1, 10, 20⟩]
    bullets := [⟨5, 10, 80, false, none, none⟩, ⟨6, 3, 4, true, none, none⟩]
    balls := [⟨2, 60, 70⟩] }

/-- C7 witness: the reconciliation property at snapshots received at times 0
and 100 rendered at local time 100. -/
theorem client_interpolation_spec_witness :
    (0:ℚ) ≤ 100 - Client.INTERP_DELAY_MS ∧ 100 - Client.INTERP_DELAY_MS ≤ 100 ∧
    ∃ st, Client.getInterpolatedState [⟨0, c7s0⟩, ⟨100, c7s1⟩] 100 = some st ∧
      (∀ pb ∈ c7s1.players, ∀ pa, c7s0.players.find? (·.id == pb.id) = some pa →
        ({ pb with
            x := Client.lerp pa.x pb.x
              (min 1 (max 0 ((100 - Client.INTERP_DELAY_MS - 0) / (100 - 0))))
            y := Client.lerp pa.y pb.y
              (min 1 (max 0 ((100 - Client.INTERP_DELAY_MS - 0) / (100 - 0)))) } : Client.CPlayer)
          ∈ st.players) ∧
      (∀ bb ∈ c7s1.balls, ∀ ba, c7s0.balls.find? (·.id == bb.id) = some ba →
        ({ bb with
            x := Client.lerp ba.x bb.x
              (min 1 (max 0 ((100 - Client.INTERP_DELAY_MS - 0) / (100 - 0))))
            y := Client.lerp ba.y bb.y
              (min 1 (max 0 ((100 - Client.INTERP_DELAY_MS - 0) / (100 - 0)))) } : Client.CBall)
          ∈ st.balls) ∧
      (∀ bb ∈ c7s1.bullets, bb.homing = true → bb ∈ st.bullets) ∧
      (∀ bb ∈ c7s1.bullets, bb.homing = false →
        ({ bb with
            x := bb.x + (bb.vx.getD 0) * ((100 - 100) / Client.SERVER_TICK_MS)
            y := bb.y + (bb.vy.getD (-Client.BULLET_SPEED)) * ((100 - 100) / Client.SERVER_TICK_MS) }
          : Client.CBullet) ∈ st.bullets) :=
  ⟨by norm_num [Client.INTERP_DELAY_MS], by norm_num [Client.INTERP_DELAY_MS],
    client_interpolation_spec 0 100 100 c7s0 c7s1 (by norm_num [Client.INTERP_DELAY_MS])
      (by norm_num [Client.INTERP_DELAY_MS])⟩

end Balls

